import Mathlib

/-!
RGibbs: the Gibbs reactor unit operation.

A shallow embedding of `src/RGibbsReactor.h` / `src/RGibbsReactor.cpp` and of the
`DummyThermo` stub of `tests/test_reactor.cpp`.

* `double` amounts are read as exact rationals (`ℚ`): no rounding, no infinities, no
  not-a-number. The namespace `binary64` holds the same engine with `double` read as
  IEEE 754 binary64 (one rounding to nearest, ties to even, per operation), for the
  claims that hold in exact arithmetic only.
* `std::map<std::string, double>` is represented by its in-order list of entries.
* A thermodynamic package is an object with virtual, non-const methods: its calls are
  embedded as functions that thread an explicit world state `σ` (whatever the packages
  keep behind the interface) and that may throw.
* A C++ member function that may throw after having changed the object is embedded as a
  function returning the result together with the object and the world left behind.
* The diagnostic `log` calls write to the standard error stream only and are left out.
-/

namespace capeopen

/-- Error codes of `enum class CapeOpenError`. -/
inductive CapeOpenError
  | CapeNoError
  | CapeUnknownError
  | CapeInvalidArgument
  | CapeInvalidOperation
  | CapeFailedInitialization
  | CapeCalculationFailed
  deriving DecidableEq, Repr

/-- The exception class `CapeOpenException`: a code and a message. -/
structure CapeOpenException where
  code : CapeOpenError
  message : String
  deriving DecidableEq, Repr

/-- What leaves a C++ call abnormally.
`cape`: a thrown `CapeOpenException` (a domain error);
`stdex`: a thrown `std::exception` of another class, with its `what()`;
`foreign`: a thrown object that is not a `std::exception`;
`nullDeref`: a call through an empty `shared_ptr` (undefined behaviour, no exception). -/
inductive Thrown
  | cape (e : CapeOpenException)
  | stdex (what : String)
  | foreign (tag : String)
  | nullDeref
  deriving DecidableEq, Repr

/-- The in-order entries of a `std::map<std::string, double>`. -/
abbrev Composition := List (String × ℚ)

/-- The struct `MaterialPort`. -/
structure MaterialPort where
  name : String := ""
  composition : Composition := []
  temperature : ℚ := 298.15
  pressure : ℚ := 101325
  deriving DecidableEq, Repr

/-- The interface `ThermoPackage`: two virtual methods, each of which sees the world
state, may change it, and either returns or throws. -/
structure ThermoPackage (σ : Type) where
  chemicalPotential : MaterialPort → σ → Except Thrown Composition × σ
  gibbsEnergy : MaterialPort → σ → Except Thrown ℚ × σ

/-- The private fields of the class `RGibbsReactor`. -/
structure RGibbsReactor (σ : Type) where
  initialized_ : Bool
  calculated_ : Bool
  feed_ : MaterialPort
  product_ : MaterialPort
  temperature_ : ℚ
  pressure_ : ℚ
  thermo_ : Option (ThermoPackage σ)

/-- The result of a member function call: what it returned or threw, the object as the
call left it, and the world as the call left it. -/
structure Outcome (σ : Type) (α : Type) where
  result : Except Thrown α
  reactor : RGibbsReactor σ
  world : σ

/-- The loop `for (kv : m) total += kv.second` starting from `0.0`, each `+=` read as an
exact addition; `binary64.sumMoles` is the same loop with each `+=` rounded. -/
def sumMoles (m : Composition) : ℚ :=
  m.foldl (fun acc kv => acc + kv.2) 0

/-- The call `mu.find(key)`: the value stored under `key`, if any. -/
def find (mu : Composition) (key : String) : Option ℚ :=
  match mu with
  | [] => none
  | kv :: rest => if kv.1 = key then some kv.2 else find rest key

/-- The constant `alpha` of `performGibbsMinimization`. -/
def alpha : ℚ := 0.1

/-- The mean `lambda` of the potentials: their sum divided by `mu.size()`, read as an
exact quotient; `binary64.lambdaOf` is the same with sum and quotient rounded. For an
empty `mu` the quotient is `0` here and not a number in C++; it is then used by no
update, since no species has a potential. -/
def lambdaOf (mu : Composition) : ℚ :=
  sumMoles mu / (mu.length : ℚ)

/-- The update loop of one iteration: an amount whose species has a potential becomes
`max(0.0, amount - alpha * (potential - lambda))`, the others are skipped; the
operations are read as exact, `binary64.adjust` is the same with each one rounded and
`std::max` on not-a-number as in C++. -/
def adjust (mu : Composition) (lambda : ℚ) (comp : Composition) : Composition :=
  comp.map fun kv =>
    match find mu kv.1 with
    | none => kv
    | some m => (kv.1, max 0 (kv.2 - alpha * (m - lambda)))

/-- The renormalisation loop: `kv.second *= totalMoles / newTotal`, read as exact;
`binary64.rescale` is the same with quotient and product rounded, infinities and
not-a-number included. -/
def rescale (totalMoles newTotal : ℚ) (comp : Composition) : Composition :=
  comp.map fun kv => (kv.1, kv.2 * (totalMoles / newTotal))

/-- The body of `for (iter ...)` in `performGibbsMinimization`, run `n` more times on the
product `p` with the potentials `mu` of the previous query. Returns the product and the
world as they are when the loop ends or throws. -/
def iterate (thermo : ThermoPackage σ) (totalMoles : ℚ) :
    Nat → Composition → MaterialPort → σ → Except Thrown Unit × MaterialPort × σ
  | 0, _, p, w => (.ok (), p, w)
  | n + 1, mu, p, w =>
    let lambda := lambdaOf mu
    let p1 := { p with composition := adjust mu lambda p.composition }
    let newTotal := sumMoles p1.composition
    if newTotal ≤ 0 then
      (.error (.cape ⟨.CapeCalculationFailed, "迭代得到无效组成"⟩), p1, w)
    else
      let p2 := { p1 with composition := rescale totalMoles newTotal p1.composition }
      match thermo.chemicalPotential p2 w with
      | (.error e, w1) => (.error e, p2, w1)
      | (.ok mu1, w1) => iterate thermo totalMoles n mu1 p2 w1

namespace RGibbsReactor

variable {σ : Type}

/-- The constructor `RGibbsReactor()`: the default member initialisers. -/
def construct : RGibbsReactor σ :=
  { initialized_ := false
    calculated_ := false
    feed_ := {}
    product_ := {}
    temperature_ := 298.15
    pressure_ := 101325
    thermo_ := none }

/-- Member `ensureInitialized`. -/
def ensureInitialized (self : RGibbsReactor σ) : Except Thrown Unit :=
  if !self.initialized_ then
    .error (.cape ⟨.CapeInvalidOperation, "请先调用 Initialize"⟩)
  else .ok ()

/-- Member `Initialize`. -/
def Initialize (self : RGibbsReactor σ) (w : σ) : Outcome σ Unit :=
  match self.thermo_ with
  | none => ⟨.error (.cape ⟨.CapeFailedInitialization, "未配置热力学包"⟩), self, w⟩
  | some _ => ⟨.ok (), { self with initialized_ := true, calculated_ := false }, w⟩

/-- Member `Validate`. -/
def Validate (self : RGibbsReactor σ) (w : σ) : Outcome σ Unit :=
  match self.ensureInitialized with
  | .error e => ⟨.error e, self, w⟩
  | .ok () =>
    if self.feed_.composition.isEmpty then
      ⟨.error (.cape ⟨.CapeInvalidArgument, "进料组成为空"⟩), self, w⟩
    else if self.temperature_ ≤ 0 ∨ self.pressure_ ≤ 0 then
      ⟨.error (.cape ⟨.CapeInvalidArgument, "温度或压力无效"⟩), self, w⟩
    else ⟨.ok (), self, w⟩

/-- Member `performGibbsMinimization`. -/
def performGibbsMinimization (self : RGibbsReactor σ) (w : σ) : Outcome σ Unit :=
  let p0 : MaterialPort :=
    { self.feed_ with temperature := self.temperature_, pressure := self.pressure_ }
  let s0 := { self with product_ := p0 }
  match self.thermo_ with
  | none => ⟨.error .nullDeref, s0, w⟩
  | some thermo =>
    match thermo.chemicalPotential p0 w with
    | (.error e, w1) => ⟨.error e, s0, w1⟩
    | (.ok mu, w1) =>
      let totalMoles := sumMoles p0.composition
      if totalMoles ≤ 0 then
        ⟨.error (.cape ⟨.CapeCalculationFailed, "物料摩尔数无效"⟩), s0, w1⟩
      else
        match iterate thermo totalMoles 20 mu p0 w1 with
        | (.error e, p, w2) => ⟨.error e, { self with product_ := p }, w2⟩
        | (.ok (), p, w2) =>
          match thermo.gibbsEnergy p w2 with
          | (.error e, w3) => ⟨.error e, { self with product_ := p }, w3⟩
          | (.ok _, w3) => ⟨.ok (), { self with product_ := p }, w3⟩

/-- The handlers of the `try` block of `Calculate`: a `CapeOpenException` is rethrown,
another `std::exception` is replaced by `CapeCalculationFailed` with its `what()`, and
anything else is not caught. -/
def catchCalculate : Thrown → Thrown
  | .cape e => .cape e
  | .stdex what => .cape ⟨.CapeCalculationFailed, what⟩
  | t => t

/-- Member `Calculate`. -/
def Calculate (self : RGibbsReactor σ) (w : σ) : Outcome σ Unit :=
  match self.ensureInitialized with
  | .error e => ⟨.error e, self, w⟩
  | .ok () =>
    match Validate self w with
    | ⟨.error e, s1, w1⟩ => ⟨.error (catchCalculate e), s1, w1⟩
    | ⟨.ok (), s1, w1⟩ =>
      match performGibbsMinimization s1 w1 with
      | ⟨.error e, s2, w2⟩ => ⟨.error (catchCalculate e), s2, w2⟩
      | ⟨.ok (), s2, w2⟩ => ⟨.ok (), { s2 with calculated_ := true }, w2⟩

/-- Member `Terminate`. -/
def Terminate (self : RGibbsReactor σ) (w : σ) : Outcome σ Unit :=
  ⟨.ok (), { self with initialized_ := false, calculated_ := false }, w⟩

/-- Member `setFeed`. -/
def setFeed (self : RGibbsReactor σ) (feed : MaterialPort) (w : σ) : Outcome σ Unit :=
  ⟨.ok (), { self with feed_ := feed }, w⟩

/-- Member `setThermoPackage`; `none` is an empty `shared_ptr`. -/
def setThermoPackage (self : RGibbsReactor σ) (pkg : Option (ThermoPackage σ)) (w : σ) :
    Outcome σ Unit :=
  ⟨.ok (), { self with thermo_ := pkg }, w⟩

/-- Member `setTemperature`. -/
def setTemperature (self : RGibbsReactor σ) (t : ℚ) (w : σ) : Outcome σ Unit :=
  ⟨.ok (), { self with temperature_ := t }, w⟩

/-- Member `setPressure`. -/
def setPressure (self : RGibbsReactor σ) (p : ℚ) (w : σ) : Outcome σ Unit :=
  ⟨.ok (), { self with pressure_ := p }, w⟩

/-- Member `getProduct` (a `const` member: the object is not changed). -/
def getProduct (self : RGibbsReactor σ) : Except Thrown MaterialPort :=
  if !self.calculated_ then
    .error (.cape ⟨.CapeInvalidOperation, "尚未完成计算"⟩)
  else .ok self.product_

end RGibbsReactor

/-- The stub `DummyThermo` of `tests/test_reactor.cpp`: the potential of a species is its
mole fraction (`0.0` when the total is not positive), the Gibbs energy is `1000` times
the total. It keeps no state and never throws. -/
def DummyThermo : ThermoPackage σ where
  chemicalPotential state w :=
    let total := sumMoles state.composition
    (.ok (state.composition.map fun kv => (kv.1, if total > 0 then kv.2 / total else 0)), w)
  gibbsEnergy state w := (.ok (sumMoles state.composition * 1000), w)

/-- A package that answers as `thermo` does and notes, in a second component of the
world, the failure of a query when one fails. -/
def recording (thermo : ThermoPackage σ) : ThermoPackage (σ × Option Thrown) where
  chemicalPotential state w :=
    match thermo.chemicalPotential state w.1 with
    | (.error e, w1) => (.error e, (w1, some e))
    | (.ok mu, w1) => (.ok mu, (w1, w.2))
  gibbsEnergy state w :=
    match thermo.gibbsEnergy state w.1 with
    | (.error e, w1) => (.error e, (w1, some e))
    | (.ok g, w1) => (.ok g, (w1, w.2))

/-- The object `self` with the recording version of `thermo` attached in place of its
package. -/
def RGibbsReactor.attachRecording (self : RGibbsReactor σ) (thermo : ThermoPackage σ) :
    RGibbsReactor (σ × Option Thrown) :=
  { initialized_ := self.initialized_
    calculated_ := self.calculated_
    feed_ := self.feed_
    product_ := self.product_
    temperature_ := self.temperature_
    pressure_ := self.pressure_
    thermo_ := some (recording thermo) }

/-- A package whose every query throws `t`. -/
def failingThermo (t : Thrown) : ThermoPackage σ where
  chemicalPotential _ w := (.error t, w)
  gibbsEnergy _ w := (.error t, w)

/-- A package that counts its queries in the world and otherwise answers as
`DummyThermo`. -/
def countingThermo : ThermoPackage Nat where
  chemicalPotential state n := ((DummyThermo.chemicalPotential state ()).1, n + 1)
  gibbsEnergy state n := ((DummyThermo.gibbsEnergy state ()).1, n + 1)

/-- The public operations of `RGibbsReactor`, with their arguments. -/
inductive Op (σ : Type)
  | Initialize
  | Validate
  | Calculate
  | Terminate
  | setFeed (feed : MaterialPort)
  | setThermoPackage (pkg : Option (ThermoPackage σ))
  | setTemperature (t : ℚ)
  | setPressure (p : ℚ)
  | getProduct

/-- One public call on the object `self` in the world `w`; the value `getProduct` returns
is dropped. -/
def Op.apply (op : Op σ) (self : RGibbsReactor σ) (w : σ) : Outcome σ Unit :=
  match op with
  | .Initialize => self.Initialize w
  | .Validate => self.Validate w
  | .Calculate => self.Calculate w
  | .Terminate => self.Terminate w
  | .setFeed feed => self.setFeed feed w
  | .setThermoPackage pkg => self.setThermoPackage pkg w
  | .setTemperature t => self.setTemperature t w
  | .setPressure p => self.setPressure p w
  | .getProduct => ⟨self.getProduct.map fun _ => (), self, w⟩

/-- The object and the world after a sequence of public calls, whether they returned or
threw. -/
def run : List (Op σ) → RGibbsReactor σ → σ → RGibbsReactor σ × σ
  | [], self, w => (self, w)
  | op :: ops, self, w => run ops (op.apply self w).reactor (op.apply self w).world

/-- Whether the call `op` on `self` in `w` is a `Calculate` that returns normally. -/
def calculateSucceeds (op : Op σ) (self : RGibbsReactor σ) (w : σ) : Bool :=
  match op with
  | .Calculate =>
    match (self.Calculate w).result with
    | .ok _ => true
    | .error _ => false
  | _ => false

/-- No `Calculate` returns normally in the run of `ops` from `self` and `w`. -/
def noCalculateSucceeded : List (Op σ) → RGibbsReactor σ → σ → Bool
  | [], _, _ => true
  | op :: ops, self, w =>
    !calculateSucceeds op self w &&
      noCalculateSucceeded ops (op.apply self w).reactor (op.apply self w).world

/-- The product as the engine left it at the last `Calculate` of the run of `ops` that
returned normally, `last` when there is none. -/
def lastEngineOutput : List (Op σ) → RGibbsReactor σ → σ → Option MaterialPort →
    Option MaterialPort
  | [], _, _, last => last
  | op :: ops, self, w, last =>
    lastEngineOutput ops (op.apply self w).reactor (op.apply self w).world
      (if calculateSucceeds op self w then some (op.apply self w).reactor.product_ else last)

/-- The feed of `test_successful_calculation`. -/
def testFeed : MaterialPort :=
  { name := "Feed", composition := [("A", 1), ("B", 2)], temperature := 300,
    pressure := 101325 }

/-- The object of `test_successful_calculation` after its `Initialize()`. -/
def testReactor : RGibbsReactor σ :=
  { initialized_ := true
    calculated_ := false
    feed_ := testFeed
    product_ := {}
    temperature_ := 500
    pressure_ := 200000
    thermo_ := some DummyThermo }

deriving instance DecidableEq for Except

/-- The product after the update and the renormalisation of one iteration. -/
def nextProduct (t : ℚ) (mu : Composition) (p : MaterialPort) : MaterialPort :=
  { p with
    composition :=
      rescale t (sumMoles (adjust mu (lambdaOf mu) p.composition))
        (adjust mu (lambdaOf mu) p.composition) }

/-- The product after the first three assignments of the engine: the feed with the
setpoints as temperature and pressure. -/
def RGibbsReactor.startProduct (self : RGibbsReactor σ) : MaterialPort :=
  { self.feed_ with temperature := self.temperature_, pressure := self.pressure_ }

/-- An object with the counting package attached and the feed and setpoints of the test,
after `Terminate`. -/
def terminatedCounting : RGibbsReactor Nat :=
  (RGibbsReactor.Terminate
    { (testReactor : RGibbsReactor Nat) with thermo_ := some countingThermo } 0).reactor

/-- A sequence of public calls in which `Calculate` is called twice and throws twice:
once on an empty feed, once after `Terminate`. -/
def gatedCalls : List (Op Unit) :=
  [.setThermoPackage (some DummyThermo), .setFeed { name := "Feed" }, .Initialize,
    .Calculate, .Validate, .setFeed testFeed, .Terminate, .Calculate, .getProduct]

/-- The object of `test_validation_failure` after its `Initialize()`. -/
def emptyFeedReactor : RGibbsReactor Unit :=
  (run [.setThermoPackage (some DummyThermo),
    .setFeed { name := "Feed", composition := [], temperature := 300, pressure := 101325 },
    .Initialize] RGibbsReactor.construct ()).1

/-- A package that answers as `DummyThermo` until its third query, which throws `t`; the
world counts the queries. -/
def thirdQueryFails (t : Thrown) : ThermoPackage Nat where
  chemicalPotential state n :=
    if n = 2 then (.error t, n + 1) else ((DummyThermo.chemicalPotential state ()).1, n + 1)
  gibbsEnergy state n :=
    if n = 2 then (.error t, n + 1) else ((DummyThermo.gibbsEnergy state ()).1, n + 1)

/-- The object of the test with the package `thermo` attached. -/
def testReactorWith (thermo : ThermoPackage σ) : RGibbsReactor σ :=
  { (testReactor : RGibbsReactor σ) with thermo_ := some thermo }

/-- An initialised object with the feed `A: 0`, the setpoints of the test and the
package `thermo`. -/
def zeroFeedReactor (thermo : ThermoPackage σ) : RGibbsReactor σ :=
  { (testReactor : RGibbsReactor σ) with
    feed_ := { name := "Feed", composition := [("A", 0)], temperature := 300,
               pressure := 101325 }
    thermo_ := some thermo }

/-- The calls of `test_successful_calculation` up to its `Calculate()`, followed by
`setFeed` with the feed `A: 0` and a second `Calculate()`. -/
def staleCalls : List (Op Unit) :=
  [.setThermoPackage (some DummyThermo), .setFeed testFeed, .setTemperature 500,
    .setPressure 200000, .Initialize, .Calculate,
    .setFeed { name := "Feed", composition := [("A", 0)], temperature := 300,
               pressure := 101325 },
    .Calculate]

/-- The state CALCULATED reached by the calls of `test_successful_calculation`, with the
feed then replaced by `A: 0`. -/
def calculatedZeroFeed : RGibbsReactor Unit :=
  (run (staleCalls.take 7) RGibbsReactor.construct ()).1

/-- The calls of `test_successful_calculation` up to and including its `Calculate()`. -/
def testCalls : List (Op Unit) :=
  [.setThermoPackage (some DummyThermo), .setFeed testFeed, .setTemperature 500,
    .setPressure 200000, .Initialize, .Calculate]

/-- The first calls of `test_successful_calculation` up to its `Initialize()`, followed by
`setThermoPackage` with an empty `shared_ptr`. -/
def detachCalls : List (Op Unit) :=
  [.setThermoPackage (some DummyThermo), .setFeed testFeed, .setTemperature 500,
    .setPressure 200000, .Initialize, .setThermoPackage none]

/-- A package that gives every species of the state the potential `7` and the Gibbs
energy `0`; it keeps no state and never throws. -/
def constantThermo : ThermoPackage σ where
  chemicalPotential state w := (.ok (state.composition.map fun kv => (kv.1, 7)), w)
  gibbsEnergy _ w := (.ok 0, w)

/-- The loop of `iterate` with, beside its outcome, the values the local `newTotal` takes
in the iterations it runs, in order. -/
def iterateTraced (thermo : ThermoPackage σ) (totalMoles : ℚ) :
    Nat → Composition → MaterialPort → σ →
      (Except Thrown Unit × MaterialPort × σ) × List ℚ
  | 0, _, p, w => ((.ok (), p, w), [])
  | n + 1, mu, p, w =>
    let lambda := lambdaOf mu
    let p1 := { p with composition := adjust mu lambda p.composition }
    let newTotal := sumMoles p1.composition
    if newTotal ≤ 0 then
      ((.error (.cape ⟨.CapeCalculationFailed, "迭代得到无效组成"⟩), p1, w), [newTotal])
    else
      let p2 := { p1 with composition := rescale totalMoles newTotal p1.composition }
      match thermo.chemicalPotential p2 w with
      | (.error e, w1) => ((.error e, p2, w1), [newTotal])
      | (.ok mu1, w1) =>
        ((iterateTraced thermo totalMoles n mu1 p2 w1).1,
          newTotal :: (iterateTraced thermo totalMoles n mu1 p2 w1).2)

/-- Member `performGibbsMinimization` with, beside its outcome, the values the local
`newTotal` takes in the iterations of its loop, in order; none when the loop is not
reached. -/
def RGibbsReactor.performGibbsMinimizationTraced (self : RGibbsReactor σ) (w : σ) :
    Outcome σ Unit × List ℚ :=
  let p0 : MaterialPort :=
    { self.feed_ with temperature := self.temperature_, pressure := self.pressure_ }
  let s0 := { self with product_ := p0 }
  match self.thermo_ with
  | none => (⟨.error .nullDeref, s0, w⟩, [])
  | some thermo =>
    match thermo.chemicalPotential p0 w with
    | (.error e, w1) => (⟨.error e, s0, w1⟩, [])
    | (.ok mu, w1) =>
      let totalMoles := sumMoles p0.composition
      if totalMoles ≤ 0 then
        (⟨.error (.cape ⟨.CapeCalculationFailed, "物料摩尔数无效"⟩), s0, w1⟩, [])
      else
        match iterateTraced thermo totalMoles 20 mu p0 w1 with
        | ((.error e, p, w2), totals) => (⟨.error e, { self with product_ := p }, w2⟩, totals)
        | ((.ok (), p, w2), totals) =>
          match thermo.gibbsEnergy p w2 with
          | (.error e, w3) => (⟨.error e, { self with product_ := p }, w3⟩, totals)
          | (.ok _, w3) => (⟨.ok (), { self with product_ := p }, w3⟩, totals)

/-! The same engine in `double` arithmetic. -/

namespace binary64

/-- The power `2 ^ e` as a rational. -/
def pow2 (e : Int) : ℚ :=
  if 0 ≤ e then ((2 ^ e.toNat : Nat) : ℚ) else 1 / ((2 ^ (-e).toNat : Nat) : ℚ)

/-- The number of binary digits of `n`, found in at most `fuel` halvings. -/
def bits : Nat → Nat → Nat
  | 0, _ => 0
  | fuel + 1, n => if n = 0 then 0 else bits fuel (n / 2) + 1

/-- The integer `e` with `2 ^ e ≤ a < 2 ^ (e + 1)`, for a positive rational `a`: the
difference of the numbers of digits of numerator and denominator, or one less. -/
def ilog2 (a : ℚ) : Int :=
  let e0 : Int := (bits a.num.toNat a.num.toNat : Int) - (bits a.den a.den : Int)
  if pow2 e0 ≤ a then e0 else e0 - 1

/-- The integer nearest to the rational `m ≥ 0`, the even one of the two when `m` is
half-way between them. -/
def roundHalfEven (m : ℚ) : Nat :=
  let f : Nat := m.num.toNat / m.den
  let r : ℚ := m - (f : ℚ)
  if r < 1 / 2 then f
  else if 1 / 2 < r then f + 1
  else if f % 2 = 0 then f else f + 1

/-- The values of the C++ type `double` (IEEE 754 binary64): the finite ones as exact
rationals, the two infinities and not-a-number. The sign of a zero and the payload of a
not-a-number are not kept: the engine and the test stub divide only by the count
`mu.size()` and by totals that are positive or not a number, so the sign of a zero
decides no comparison and no value. -/
inductive Double
  | finite (q : ℚ)
  | posInf
  | negInf
  | nan
  deriving DecidableEq, Repr

namespace Double

/-- The `double` nearest to the rational `q` (round to nearest, ties to even): 53
significant bits, exponents from `-1022` to `1023`, gradual underflow below, and
overflow to an infinity from `2 ^ 1024 - 2 ^ 970` on. -/
def round (q : ℚ) : Double :=
  if q = 0 then .finite 0
  else
    let a : ℚ := if 0 < q then q else -q
    let e : Int := max (ilog2 a) (-1022)
    let quantum : ℚ := pow2 (e - 52)
    let r : ℚ := (roundHalfEven (a / quantum) : ℚ) * quantum
    if pow2 1024 ≤ r then (if 0 < q then .posInf else .negInf)
    else .finite (if 0 < q then r else -r)

/-- The operator `+` on `double`. -/
def add : Double → Double → Double
  | .nan, _ => .nan
  | _, .nan => .nan
  | .posInf, .negInf => .nan
  | .negInf, .posInf => .nan
  | .posInf, _ => .posInf
  | _, .posInf => .posInf
  | .negInf, _ => .negInf
  | _, .negInf => .negInf
  | .finite a, .finite b => round (a + b)

/-- The unary operator `-` on `double`. -/
def neg : Double → Double
  | .nan => .nan
  | .posInf => .negInf
  | .negInf => .posInf
  | .finite a => .finite (-a)

/-- The operator `-` on `double`. -/
def sub (x y : Double) : Double := add x (neg y)

/-- The operator `*` on `double`. -/
def mul : Double → Double → Double
  | .nan, _ => .nan
  | _, .nan => .nan
  | .finite a, .finite b => round (a * b)
  | .finite a, .posInf => if a = 0 then .nan else if 0 < a then .posInf else .negInf
  | .finite a, .negInf => if a = 0 then .nan else if 0 < a then .negInf else .posInf
  | .posInf, .finite b => if b = 0 then .nan else if 0 < b then .posInf else .negInf
  | .negInf, .finite b => if b = 0 then .nan else if 0 < b then .negInf else .posInf
  | .posInf, .posInf => .posInf
  | .negInf, .negInf => .posInf
  | .posInf, .negInf => .negInf
  | .negInf, .posInf => .negInf

/-- The operator `/` on `double`; a zero divisor is taken as `+0.0`. -/
def div : Double → Double → Double
  | .nan, _ => .nan
  | _, .nan => .nan
  | .finite a, .finite b =>
    if b = 0 then (if a = 0 then .nan else if 0 < a then .posInf else .negInf)
    else round (a / b)
  | .finite _, .posInf => .finite 0
  | .finite _, .negInf => .finite 0
  | .posInf, .finite b => if 0 ≤ b then .posInf else .negInf
  | .negInf, .finite b => if 0 ≤ b then .negInf else .posInf
  | .posInf, .posInf => .nan
  | .posInf, .negInf => .nan
  | .negInf, .posInf => .nan
  | .negInf, .negInf => .nan

/-- The operator `<` on `double`: false when an operand is not a number. -/
def lt : Double → Double → Bool
  | .nan, _ => false
  | _, .nan => false
  | .finite a, .finite b => decide (a < b)
  | .finite _, .posInf => true
  | .finite _, .negInf => false
  | .posInf, _ => false
  | .negInf, .negInf => false
  | .negInf, _ => true

/-- The operator `<=` on `double`: false when an operand is not a number. -/
def le : Double → Double → Bool
  | .nan, _ => false
  | _, .nan => false
  | .finite a, .finite b => decide (a ≤ b)
  | .finite _, .posInf => true
  | .finite _, .negInf => false
  | .posInf, .posInf => true
  | .posInf, _ => false
  | .negInf, _ => true

/-- The call `std::max(x, y)`: `(x < y) ? y : x`. -/
def max (x y : Double) : Double := if lt x y then y else x

end Double

/-- The in-order entries of a `std::map<std::string, double>`, amounts as `double`. -/
abbrev Composition := List (String × Double)

/-- The struct `MaterialPort`, its numbers as `double`. -/
structure MaterialPort where
  name : String := ""
  composition : Composition := []
  temperature : Double := Double.round 298.15
  pressure : Double := Double.round 101325
  deriving DecidableEq, Repr

/-- The interface `ThermoPackage` over `double`. -/
structure ThermoPackage (σ : Type) where
  chemicalPotential : MaterialPort → σ → Except Thrown Composition × σ
  gibbsEnergy : MaterialPort → σ → Except Thrown Double × σ

/-- The private fields of the class `RGibbsReactor`, its numbers as `double`. -/
structure RGibbsReactor (σ : Type) where
  initialized_ : Bool
  calculated_ : Bool
  feed_ : MaterialPort
  product_ : MaterialPort
  temperature_ : Double
  pressure_ : Double
  thermo_ : Option (ThermoPackage σ)

/-- The result of a member function call: what it returned or threw, the object and the
world as the call left them. -/
structure Outcome (σ : Type) (α : Type) where
  result : Except Thrown α
  reactor : RGibbsReactor σ
  world : σ

/-- The loop `for (kv : m) total += kv.second` starting from `0.0`, each `+=` rounded. -/
def sumMoles (m : Composition) : Double :=
  m.foldl (fun acc kv => acc.add kv.2) (.finite 0)

/-- The call `mu.find(key)`. -/
def find (mu : Composition) (key : String) : Option Double :=
  match mu with
  | [] => none
  | kv :: rest => if kv.1 = key then some kv.2 else find rest key

/-- The constant `alpha`: the `double` nearest to `0.1`. -/
def alpha : Double := Double.round 0.1

/-- The mean `lambda`: the rounded sum divided by `static_cast<double>(mu.size())`. -/
def lambdaOf (mu : Composition) : Double :=
  (sumMoles mu).div (Double.round (mu.length : ℚ))

/-- The update loop of one iteration: `delta = alpha * (potential - lambda)` and
`amount = std::max(0.0, amount - delta)`, each operation rounded. -/
def adjust (mu : Composition) (lambda : Double) (comp : Composition) : Composition :=
  comp.map fun kv =>
    match find mu kv.1 with
    | none => kv
    | some m => (kv.1, Double.max (.finite 0) (kv.2.sub (alpha.mul (m.sub lambda))))

/-- The renormalisation loop: `kv.second *= totalMoles / newTotal`. -/
def rescale (totalMoles newTotal : Double) (comp : Composition) : Composition :=
  comp.map fun kv => (kv.1, kv.2.mul (totalMoles.div newTotal))

/-- The body of `for (iter ...)` in `performGibbsMinimization`, run `n` more times. -/
def iterate (thermo : ThermoPackage σ) (totalMoles : Double) :
    Nat → Composition → MaterialPort → σ → Except Thrown Unit × MaterialPort × σ
  | 0, _, p, w => (.ok (), p, w)
  | n + 1, mu, p, w =>
    let lambda := lambdaOf mu
    let p1 := { p with composition := adjust mu lambda p.composition }
    let newTotal := sumMoles p1.composition
    if newTotal.le (.finite 0) then
      (.error (.cape ⟨.CapeCalculationFailed, "迭代得到无效组成"⟩), p1, w)
    else
      let p2 := { p1 with composition := rescale totalMoles newTotal p1.composition }
      match thermo.chemicalPotential p2 w with
      | (.error e, w1) => (.error e, p2, w1)
      | (.ok mu1, w1) => iterate thermo totalMoles n mu1 p2 w1

namespace RGibbsReactor

variable {σ : Type}

/-- Member `ensureInitialized`. -/
def ensureInitialized (self : RGibbsReactor σ) : Except Thrown Unit :=
  if !self.initialized_ then
    .error (.cape ⟨.CapeInvalidOperation, "请先调用 Initialize"⟩)
  else .ok ()

/-- Member `Validate`. -/
def Validate (self : RGibbsReactor σ) (w : σ) : Outcome σ Unit :=
  match self.ensureInitialized with
  | .error e => ⟨.error e, self, w⟩
  | .ok () =>
    if self.feed_.composition.isEmpty then
      ⟨.error (.cape ⟨.CapeInvalidArgument, "进料组成为空"⟩), self, w⟩
    else if self.temperature_.le (.finite 0) || self.pressure_.le (.finite 0) then
      ⟨.error (.cape ⟨.CapeInvalidArgument, "温度或压力无效"⟩), self, w⟩
    else ⟨.ok (), self, w⟩

/-- Member `performGibbsMinimization`. -/
def performGibbsMinimization (self : RGibbsReactor σ) (w : σ) : Outcome σ Unit :=
  let p0 : MaterialPort :=
    { self.feed_ with temperature := self.temperature_, pressure := self.pressure_ }
  let s0 := { self with product_ := p0 }
  match self.thermo_ with
  | none => ⟨.error .nullDeref, s0, w⟩
  | some thermo =>
    match thermo.chemicalPotential p0 w with
    | (.error e, w1) => ⟨.error e, s0, w1⟩
    | (.ok mu, w1) =>
      let totalMoles := sumMoles p0.composition
      if totalMoles.le (.finite 0) then
        ⟨.error (.cape ⟨.CapeCalculationFailed, "物料摩尔数无效"⟩), s0, w1⟩
      else
        match iterate thermo totalMoles 20 mu p0 w1 with
        | (.error e, p, w2) => ⟨.error e, { self with product_ := p }, w2⟩
        | (.ok (), p, w2) =>
          match thermo.gibbsEnergy p w2 with
          | (.error e, w3) => ⟨.error e, { self with product_ := p }, w3⟩
          | (.ok _, w3) => ⟨.ok (), { self with product_ := p }, w3⟩

/-- Member `Calculate`. -/
def Calculate (self : RGibbsReactor σ) (w : σ) : Outcome σ Unit :=
  match self.ensureInitialized with
  | .error e => ⟨.error e, self, w⟩
  | .ok () =>
    match Validate self w with
    | ⟨.error e, s1, w1⟩ => ⟨.error (capeopen.RGibbsReactor.catchCalculate e), s1, w1⟩
    | ⟨.ok (), s1, w1⟩ =>
      match performGibbsMinimization s1 w1 with
      | ⟨.error e, s2, w2⟩ => ⟨.error (capeopen.RGibbsReactor.catchCalculate e), s2, w2⟩
      | ⟨.ok (), s2, w2⟩ => ⟨.ok (), { s2 with calculated_ := true }, w2⟩

/-- Member `getProduct`. -/
def getProduct (self : RGibbsReactor σ) : Except Thrown MaterialPort :=
  if !self.calculated_ then
    .error (.cape ⟨.CapeInvalidOperation, "尚未完成计算"⟩)
  else .ok self.product_

end RGibbsReactor

/-- The stub `DummyThermo` of `tests/test_reactor.cpp` over `double`. -/
def DummyThermo : ThermoPackage σ where
  chemicalPotential state w :=
    let total := sumMoles state.composition
    (.ok (state.composition.map fun kv =>
      (kv.1, if Double.lt (.finite 0) total then kv.2.div total else .finite 0)), w)
  gibbsEnergy state w := (.ok ((sumMoles state.composition).mul (.finite 1000)), w)

/-- A package that gives the species `C` the potential `1e16 + 2` and every other species
of the state the potential `1e16`, and the Gibbs energy `0.0`. -/
def skewThermo : ThermoPackage σ where
  chemicalPotential state w :=
    (.ok (state.composition.map fun kv =>
      (kv.1, if kv.1 = "C" then Double.finite 10000000000000002
        else Double.finite 10000000000000000)), w)
  gibbsEnergy _ w := (.ok (.finite 0), w)

/-- An initialised object with the feed `comp`, the setpoints of the test and the package
`thermo`. -/
def reactorWith (comp : Composition) (thermo : ThermoPackage σ) : RGibbsReactor σ :=
  { initialized_ := true
    calculated_ := false
    feed_ := { name := "Feed", composition := comp, temperature := .finite 300,
               pressure := .finite 101325 }
    product_ := {}
    temperature_ := .finite 500
    pressure_ := .finite 200000
    thermo_ := some thermo }

/-- The feed `A: 2^1023, B: 2^1023`. -/
def hugeFeed : Composition :=
  [("A", .finite (2 ^ 1023)), ("B", .finite (2 ^ 1023))]

/-- The feed `A: 0.0, B: 0.0, C: 0.1`. -/
def smallFeed : Composition :=
  [("A", .finite 0), ("B", .finite 0), ("C", Double.round 0.1)]

end binary64

/-! ## Auxiliary facts -/

theorem sumMoles_foldl (m : Composition) (a : ℚ) :
    m.foldl (fun acc kv => acc + kv.2) a = a + (m.map Prod.snd).sum := by
  induction m generalizing a with
  | nil => simp
  | cons kv rest ih => simp [ih, add_assoc]

theorem sumMoles_eq_sum (m : Composition) : sumMoles m = (m.map Prod.snd).sum := by
  simp [sumMoles, sumMoles_foldl]

theorem sumMoles_rescale (t n : ℚ) (m : Composition) :
    sumMoles (rescale t n m) = sumMoles m * (t / n) := by
  simp only [sumMoles_eq_sum, rescale, List.map_map]
  induction m with
  | nil => simp
  | cons kv rest ih => simp [ih, add_mul]

theorem sumMoles_rescale_restores (t n : ℚ) (m : Composition) (h : sumMoles m = n)
    (hn : ¬ n ≤ 0) : sumMoles (rescale t n m) = t := by
  have hn0 : n ≠ 0 := fun h0 => hn (by rw [h0])
  rw [sumMoles_rescale, h]
  field_simp

theorem iterate_succ (thermo : ThermoPackage σ) (t : ℚ) (n : Nat) (mu : Composition)
    (p : MaterialPort) (w : σ) :
    iterate thermo t (n + 1) mu p w =
      if sumMoles (adjust mu (lambdaOf mu) p.composition) ≤ 0 then
        (.error (.cape ⟨.CapeCalculationFailed, "迭代得到无效组成"⟩),
          { p with composition := adjust mu (lambdaOf mu) p.composition }, w)
      else
        match thermo.chemicalPotential (nextProduct t mu p) w with
        | (.error e, w1) => (.error e, nextProduct t mu p, w1)
        | (.ok mu1, w1) => iterate thermo t n mu1 (nextProduct t mu p) w1 := rfl

theorem sumMoles_nextProduct (t : ℚ) (mu : Composition) (p : MaterialPort)
    (hn : ¬ sumMoles (adjust mu (lambdaOf mu) p.composition) ≤ 0) :
    sumMoles (nextProduct t mu p).composition = t :=
  sumMoles_rescale_restores t _ _ rfl hn

/-- The loop keeps name, temperature and pressure of the product. -/
theorem iterate_frame (thermo : ThermoPackage σ) (t : ℚ) (n : Nat) (mu : Composition)
    (p : MaterialPort) (w : σ) :
    (iterate thermo t n mu p w).2.1.name = p.name ∧
    (iterate thermo t n mu p w).2.1.temperature = p.temperature ∧
    (iterate thermo t n mu p w).2.1.pressure = p.pressure := by
  induction n generalizing mu p w with
  | zero => simp [iterate]
  | succ n ih =>
    rw [iterate_succ]
    by_cases hn : sumMoles (adjust mu (lambdaOf mu) p.composition) ≤ 0
    · simp [hn]
    · rw [if_neg hn]
      rcases hq : thermo.chemicalPotential (nextProduct t mu p) w with ⟨e | mu1, w1⟩
      · simp [nextProduct]
      · exact ih mu1 (nextProduct t mu p) w1

/-- When the loop ends normally on a product whose total is `t`, the total is `t`. -/
theorem iterate_total (thermo : ThermoPackage σ) (t : ℚ) (n : Nat) (mu : Composition)
    (p : MaterialPort) (w : σ) (hp : sumMoles p.composition = t)
    (hok : (iterate thermo t n mu p w).1 = .ok ()) :
    sumMoles (iterate thermo t n mu p w).2.1.composition = t := by
  induction n generalizing mu p w with
  | zero => simpa [iterate] using hp
  | succ n ih =>
    rw [iterate_succ] at hok ⊢
    by_cases hn : sumMoles (adjust mu (lambdaOf mu) p.composition) ≤ 0
    · simp [hn] at hok
    · rw [if_neg hn] at hok ⊢
      rcases hq : thermo.chemicalPotential (nextProduct t mu p) w with ⟨e | mu1, w1⟩
      · rw [hq] at hok
        simp at hok
      · rw [hq] at hok
        exact ih mu1 _ w1 (sumMoles_nextProduct t mu p hn) hok

namespace RGibbsReactor

variable {σ : Type}

theorem Validate_uninitialized (self : RGibbsReactor σ) (w : σ)
    (hi : self.initialized_ = false) :
    self.Validate w =
      ⟨.error (.cape ⟨.CapeInvalidOperation, "请先调用 Initialize"⟩), self, w⟩ := by
  simp [Validate, ensureInitialized, hi]

theorem Validate_empty (self : RGibbsReactor σ) (w : σ) (hi : self.initialized_ = true)
    (hf : self.feed_.composition = []) :
    self.Validate w = ⟨.error (.cape ⟨.CapeInvalidArgument, "进料组成为空"⟩), self, w⟩ := by
  simp [Validate, ensureInitialized, hi, hf]

theorem Validate_setpoint (self : RGibbsReactor σ) (w : σ) (hi : self.initialized_ = true)
    (hf : self.feed_.composition ≠ []) (hs : self.temperature_ ≤ 0 ∨ self.pressure_ ≤ 0) :
    self.Validate w = ⟨.error (.cape ⟨.CapeInvalidArgument, "温度或压力无效"⟩), self, w⟩ := by
  simp [Validate, ensureInitialized, hi, hf, hs]

theorem Validate_pass (self : RGibbsReactor σ) (w : σ) (hi : self.initialized_ = true)
    (hf : self.feed_.composition ≠ []) (ht : 0 < self.temperature_)
    (hp : 0 < self.pressure_) :
    self.Validate w = ⟨.ok (), self, w⟩ := by
  simp [Validate, ensureInitialized, hi, hf, not_le.mpr ht, not_le.mpr hp]

/-- `Validate` assigns to no field and makes no query. -/
theorem Validate_frame (self : RGibbsReactor σ) (w : σ) :
    self.Validate w = ⟨(self.Validate w).result, self, w⟩ := by
  unfold Validate
  split
  · rfl
  · split
    · rfl
    · split <;> rfl

theorem performGibbsMinimization_null (self : RGibbsReactor σ) (w : σ)
    (hth : self.thermo_ = none) :
    self.performGibbsMinimization w =
      ⟨.error .nullDeref, { self with product_ := self.startProduct }, w⟩ := by
  simp [performGibbsMinimization, hth, startProduct]

theorem performGibbsMinimization_query (self : RGibbsReactor σ) (w w1 : σ)
    (thermo : ThermoPackage σ) (e : Thrown) (hth : self.thermo_ = some thermo)
    (hq : thermo.chemicalPotential self.startProduct w = (.error e, w1)) :
    self.performGibbsMinimization w =
      ⟨.error e, { self with product_ := self.startProduct }, w1⟩ := by
  unfold startProduct at hq
  simp [performGibbsMinimization, hth, hq, startProduct]

theorem performGibbsMinimization_total (self : RGibbsReactor σ) (w w1 : σ)
    (thermo : ThermoPackage σ) (mu : Composition) (hth : self.thermo_ = some thermo)
    (hq : thermo.chemicalPotential self.startProduct w = (.ok mu, w1))
    (ht : sumMoles self.feed_.composition ≤ 0) :
    self.performGibbsMinimization w =
      ⟨.error (.cape ⟨.CapeCalculationFailed, "物料摩尔数无效"⟩),
        { self with product_ := self.startProduct }, w1⟩ := by
  unfold startProduct at hq
  simp [performGibbsMinimization, hth, hq, startProduct, ht]

theorem performGibbsMinimization_loop (self : RGibbsReactor σ) (w w1 w2 : σ)
    (thermo : ThermoPackage σ) (mu : Composition) (e : Thrown) (p : MaterialPort)
    (hth : self.thermo_ = some thermo)
    (hq : thermo.chemicalPotential self.startProduct w = (.ok mu, w1))
    (ht : ¬ sumMoles self.feed_.composition ≤ 0)
    (hl : iterate thermo (sumMoles self.feed_.composition) 20 mu self.startProduct w1 =
      (.error e, p, w2)) :
    self.performGibbsMinimization w = ⟨.error e, { self with product_ := p }, w2⟩ := by
  unfold startProduct at hq hl
  simp [performGibbsMinimization, hth, hq, ht, hl]

theorem performGibbsMinimization_gibbs (self : RGibbsReactor σ) (w w1 w2 w3 : σ)
    (thermo : ThermoPackage σ) (mu : Composition) (p : MaterialPort)
    (r : Except Thrown ℚ)
    (hth : self.thermo_ = some thermo)
    (hq : thermo.chemicalPotential self.startProduct w = (.ok mu, w1))
    (ht : ¬ sumMoles self.feed_.composition ≤ 0)
    (hl : iterate thermo (sumMoles self.feed_.composition) 20 mu self.startProduct w1 =
      (.ok (), p, w2))
    (hg : thermo.gibbsEnergy p w2 = (r, w3)) :
    self.performGibbsMinimization w =
      ⟨r.map fun _ => (), { self with product_ := p }, w3⟩ := by
  unfold startProduct at hq hl
  cases r <;> simp [performGibbsMinimization, hth, hq, ht, hl, hg, Except.map]

/-- The engine assigns to `product_` only, and what it leaves there has the name of the
feed and the setpoints as temperature and pressure, however it ends. -/
theorem performGibbsMinimization_frame (self : RGibbsReactor σ) (w : σ) :
    (self.performGibbsMinimization w).reactor =
        { self with product_ := (self.performGibbsMinimization w).reactor.product_ } ∧
      (self.performGibbsMinimization w).reactor.product_.name = self.feed_.name ∧
      (self.performGibbsMinimization w).reactor.product_.temperature = self.temperature_ ∧
      (self.performGibbsMinimization w).reactor.product_.pressure = self.pressure_ := by
  cases hth : self.thermo_ with
  | none => rw [performGibbsMinimization_null self w hth]; simp [startProduct, hth]
  | some thermo =>
    rcases hq : thermo.chemicalPotential self.startProduct w with ⟨e | mu, w1⟩
    · rw [performGibbsMinimization_query self w w1 thermo e hth hq]; simp [startProduct, hth]
    · by_cases ht : sumMoles self.feed_.composition ≤ 0
      · rw [performGibbsMinimization_total self w w1 thermo mu hth hq ht]
        simp [startProduct, hth]
      · have hfr := iterate_frame thermo (sumMoles self.feed_.composition) 20 mu
          self.startProduct w1
        rcases hl : iterate thermo (sumMoles self.feed_.composition) 20 mu
          self.startProduct w1 with ⟨e | u, p, w2⟩
        · rw [performGibbsMinimization_loop self w w1 w2 thermo mu e p hth hq ht hl]
          rw [hl] at hfr
          simpa [startProduct, hth] using hfr
        · rcases hg : thermo.gibbsEnergy p w2 with ⟨r, w3⟩
          rw [performGibbsMinimization_gibbs self w w1 w2 w3 thermo mu p r hth hq ht hl hg]
          rw [hl] at hfr
          simpa [startProduct, hth] using hfr

/-- When the engine returns normally, the total of the product is the total of the
feed. -/
theorem performGibbsMinimization_ok (self : RGibbsReactor σ) (w : σ)
    (h : (self.performGibbsMinimization w).result = .ok ()) :
    sumMoles (self.performGibbsMinimization w).reactor.product_.composition =
      sumMoles self.feed_.composition := by
  cases hth : self.thermo_ with
  | none => rw [performGibbsMinimization_null self w hth] at h; simp at h
  | some thermo =>
    rcases hq : thermo.chemicalPotential self.startProduct w with ⟨e | mu, w1⟩
    · rw [performGibbsMinimization_query self w w1 thermo e hth hq] at h; simp at h
    · by_cases ht : sumMoles self.feed_.composition ≤ 0
      · rw [performGibbsMinimization_total self w w1 thermo mu hth hq ht] at h
        simp at h
      · have htot := iterate_total thermo (sumMoles self.feed_.composition) 20 mu
          self.startProduct w1 rfl
        rcases hl : iterate thermo (sumMoles self.feed_.composition) 20 mu
          self.startProduct w1 with ⟨e | u, p, w2⟩
        · rw [performGibbsMinimization_loop self w w1 w2 thermo mu e p hth hq ht hl] at h
          simp at h
        · rcases hg : thermo.gibbsEnergy p w2 with ⟨r, w3⟩
          rw [performGibbsMinimization_gibbs self w w1 w2 w3 thermo mu p r hth hq ht hl hg]
          rw [hl] at htot
          exact htot rfl

theorem Calculate_uninitialized (self : RGibbsReactor σ) (w : σ)
    (hi : self.initialized_ = false) :
    self.Calculate w =
      ⟨.error (.cape ⟨.CapeInvalidOperation, "请先调用 Initialize"⟩), self, w⟩ := by
  simp [Calculate, ensureInitialized, hi]

theorem Calculate_invalid (self : RGibbsReactor σ) (w : σ) (e : Thrown)
    (hi : self.initialized_ = true) (hv : (self.Validate w).result = .error e) :
    self.Calculate w = ⟨.error (catchCalculate e), self, w⟩ := by
  have hfr := Validate_frame self w
  rw [hv] at hfr
  simp [Calculate, ensureInitialized, hi, hfr]

theorem Calculate_engine_error (self : RGibbsReactor σ) (w : σ) (e : Thrown)
    (hi : self.initialized_ = true) (hv : (self.Validate w).result = .ok ())
    (he : (self.performGibbsMinimization w).result = .error e) :
    self.Calculate w =
      ⟨.error (catchCalculate e), (self.performGibbsMinimization w).reactor,
        (self.performGibbsMinimization w).world⟩ := by
  have hfr := Validate_frame self w
  rw [hv] at hfr
  rcases hp : self.performGibbsMinimization w with ⟨r, s2, w2⟩
  rw [hp] at he
  simp only at he
  subst he
  simp [Calculate, ensureInitialized, hi, hfr, hp]

theorem Calculate_engine_ok (self : RGibbsReactor σ) (w : σ)
    (hi : self.initialized_ = true) (hv : (self.Validate w).result = .ok ())
    (he : (self.performGibbsMinimization w).result = .ok ()) :
    self.Calculate w =
      ⟨.ok (), { (self.performGibbsMinimization w).reactor with calculated_ := true },
        (self.performGibbsMinimization w).world⟩ := by
  have hfr := Validate_frame self w
  rw [hv] at hfr
  rcases hp : self.performGibbsMinimization w with ⟨r, s2, w2⟩
  rw [hp] at he
  simp only at he
  subst he
  simp [Calculate, ensureInitialized, hi, hfr, hp]

/-- A `Calculate` that returns normally ran on an initialised object, passed `Validate`
and ran the engine to its end. -/
theorem Calculate_ok (self : RGibbsReactor σ) (w : σ)
    (h : (self.Calculate w).result = .ok ()) :
    self.initialized_ = true ∧ (self.Validate w).result = .ok () ∧
      (self.performGibbsMinimization w).result = .ok () := by
  cases hi : self.initialized_ with
  | false => rw [Calculate_uninitialized self w hi] at h; simp at h
  | true =>
    rcases hv : (self.Validate w).result with e | u
    · rw [Calculate_invalid self w e hi hv] at h; simp at h
    · rcases he : (self.performGibbsMinimization w).result with e | u
      · rw [Calculate_engine_error self w e hi hv he] at h; simp at h
      · exact ⟨rfl, rfl, rfl⟩

/-- A `Calculate` that throws leaves every field but `product_` as it was. -/
theorem Calculate_error_frame (self : RGibbsReactor σ) (w : σ) (e : Thrown)
    (h : (self.Calculate w).result = .error e) :
    (self.Calculate w).reactor =
      { self with product_ := (self.Calculate w).reactor.product_ } := by
  rcases Bool.eq_false_or_eq_true self.initialized_ with hi | hi
  · rcases hv : (self.Validate w).result with e1 | u
    · rw [Calculate_invalid self w e1 hi hv]
    · rcases he : (self.performGibbsMinimization w).result with e1 | u
      · rw [Calculate_engine_error self w e1 hi hv he]
        exact (performGibbsMinimization_frame self w).1
      · rw [Calculate_engine_ok self w hi hv he] at h
        simp at h
  · rw [Calculate_uninitialized self w hi]

end RGibbsReactor

/-! ## The claims -/

open RGibbsReactor

/-- C1 (mass conservation): whenever `Calculate` returns normally, for any feed,
setpoints, package and world, `getProduct` then returns a product whose composition
values sum to the sum of the feed's composition values. -/
theorem mass_conservation (self : RGibbsReactor σ) (w : σ)
    (h : (self.Calculate w).result = .ok ()) :
    ∃ p, (self.Calculate w).reactor.getProduct = .ok p ∧
      sumMoles p.composition = sumMoles self.feed_.composition := by
  obtain ⟨hi, hv, he⟩ := Calculate_ok self w h
  refine ⟨(self.performGibbsMinimization w).reactor.product_, ?_, ?_⟩
  · rw [Calculate_engine_ok self w hi hv he]
    simp [getProduct]
  · exact performGibbsMinimization_ok self w he

theorem mass_conservation_witness :
    (testReactor.Calculate ()).result = .ok () ∧
      ∃ p, ((testReactor : RGibbsReactor Unit).Calculate ()).reactor.getProduct = .ok p ∧
        sumMoles p.composition = sumMoles (testReactor : RGibbsReactor Unit).feed_.composition :=
  ⟨by decide!, mass_conservation testReactor () (by decide!)⟩

/-- C2 (setpoint propagation): whenever `Calculate` returns normally, `getProduct` then
returns a product whose temperature and pressure are the setpoints of the object, which
`Calculate` has left unchanged, whatever the temperature and pressure of the feed. -/
theorem setpoint_propagation (self : RGibbsReactor σ) (w : σ)
    (h : (self.Calculate w).result = .ok ()) :
    ∃ p, (self.Calculate w).reactor.getProduct = .ok p ∧
      p.temperature = self.temperature_ ∧ p.pressure = self.pressure_ ∧
      (self.Calculate w).reactor.temperature_ = self.temperature_ ∧
      (self.Calculate w).reactor.pressure_ = self.pressure_ := by
  obtain ⟨hi, hv, he⟩ := Calculate_ok self w h
  obtain ⟨hfr, _, ht, hp⟩ := performGibbsMinimization_frame self w
  refine ⟨(self.performGibbsMinimization w).reactor.product_, ?_, ht, hp, ?_, ?_⟩
  · rw [Calculate_engine_ok self w hi hv he]
    simp [getProduct]
  · rw [Calculate_engine_ok self w hi hv he, hfr]
  · rw [Calculate_engine_ok self w hi hv he, hfr]

theorem setpoint_propagation_witness :
    (testReactor.Calculate ()).result = .ok () ∧
      (testReactor : RGibbsReactor Unit).feed_.temperature = 300 ∧
      ∃ p, ((testReactor : RGibbsReactor Unit).Calculate ()).reactor.getProduct = .ok p ∧
        p.temperature = 500 ∧ p.pressure = 200000 ∧
        ((testReactor : RGibbsReactor Unit).Calculate ()).reactor.temperature_ = 500 ∧
        ((testReactor : RGibbsReactor Unit).Calculate ()).reactor.pressure_ = 200000 :=
  ⟨by decide!, by decide!, setpoint_propagation testReactor () (by decide!)⟩

/-- The run of `ops` keeps `calculated_` clear when no `Calculate` in it returns
normally. -/
theorem run_calculated_false (ops : List (Op σ)) (self : RGibbsReactor σ) (w : σ)
    (hc : self.calculated_ = false) (hn : noCalculateSucceeded ops self w = true) :
    (run ops self w).1.calculated_ = false := by
  induction ops generalizing self w with
  | nil => simpa [run] using hc
  | cons op ops ih =>
    simp only [noCalculateSucceeded, Bool.and_eq_true, Bool.not_eq_true'] at hn
    obtain ⟨hop, hrest⟩ := hn
    simp only [run]
    refine ih _ _ ?_ hrest
    cases op with
    | Initialize =>
      simp only [Op.apply, Initialize]
      split <;> simp [hc]
    | Validate =>
      simp only [Op.apply]
      rw [Validate_frame]
      exact hc
    | Calculate =>
      simp only [Op.apply]
      rcases hr : (self.Calculate w).result with e | u
      · rw [Calculate_error_frame self w e hr]
        exact hc
      · simp [calculateSucceeds, hr] at hop
    | Terminate => simp [Op.apply, Terminate]
    | setFeed feed => simpa [Op.apply, setFeed] using hc
    | setThermoPackage pkg => simpa [Op.apply, setThermoPackage] using hc
    | setTemperature t => simpa [Op.apply, setTemperature] using hc
    | setPressure p => simpa [Op.apply, setPressure] using hc
    | getProduct => simpa [Op.apply] using hc

/-- C3 (lifecycle gating): on an object whose `initialized_` is clear, `Calculate` and
`Validate` both throw `CapeInvalidOperation`, and each leaves the object and the world
of the packages exactly as they were, so no package was queried. -/
theorem lifecycle_gating (self : RGibbsReactor σ) (w : σ)
    (h : self.initialized_ = false) :
    self.Calculate w =
        ⟨.error (.cape ⟨.CapeInvalidOperation, "请先调用 Initialize"⟩), self, w⟩ ∧
      self.Validate w =
        ⟨.error (.cape ⟨.CapeInvalidOperation, "请先调用 Initialize"⟩), self, w⟩ :=
  ⟨Calculate_uninitialized self w h, Validate_uninitialized self w h⟩

theorem lifecycle_gating_witness :
    terminatedCounting.initialized_ = false ∧
      (terminatedCounting.Calculate 7).world = 7 ∧
      (terminatedCounting.Calculate 7).result =
        .error (.cape ⟨.CapeInvalidOperation, "请先调用 Initialize"⟩) ∧
      (terminatedCounting.Validate 7).world = 7 :=
  ⟨rfl, by rw [(lifecycle_gating terminatedCounting 7 rfl).1],
    by rw [(lifecycle_gating terminatedCounting 7 rfl).1],
    by rw [(lifecycle_gating terminatedCounting 7 rfl).2]⟩

/-- C4 (getProduct gating): `getProduct` throws `CapeInvalidOperation` exactly when
`calculated_` is clear and returns the stored product otherwise; and after any sequence
of public calls on a newly constructed object in which no `Calculate` returned normally,
`getProduct` throws `CapeInvalidOperation`. -/
theorem getProduct_gating :
    (∀ self : RGibbsReactor σ,
      (self.getProduct = .error (.cape ⟨.CapeInvalidOperation, "尚未完成计算"⟩) ↔
          self.calculated_ = false) ∧
        (self.calculated_ = true → self.getProduct = .ok self.product_) ∧
        ((∃ e, self.getProduct = .error e) → self.calculated_ = false)) ∧
      ∀ (ops : List (Op σ)) (w : σ), noCalculateSucceeded ops construct w = true →
        (run ops construct w).1.getProduct =
          .error (.cape ⟨.CapeInvalidOperation, "尚未完成计算"⟩) := by
  have key : ∀ self : RGibbsReactor σ, self.calculated_ = false →
      self.getProduct = .error (.cape ⟨.CapeInvalidOperation, "尚未完成计算"⟩) := by
    intro self hc
    simp [getProduct, hc]
  refine ⟨fun self => ⟨⟨?_, key self⟩, ?_, ?_⟩, ?_⟩
  · intro hg
    cases hc : self.calculated_ with
    | false => rfl
    | true => simp [getProduct, hc] at hg
  · intro hc
    simp [getProduct, hc]
  · rintro ⟨e, hg⟩
    cases hc : self.calculated_ with
    | false => rfl
    | true => simp [getProduct, hc] at hg
  · intro ops w hn
    exact key _ (run_calculated_false ops construct w rfl hn)

theorem getProduct_gating_witness :
    noCalculateSucceeded gatedCalls construct () = true ∧
      (run gatedCalls construct ()).1.getProduct =
        .error (.cape ⟨.CapeInvalidOperation, "尚未完成计算"⟩) :=
  ⟨by decide!, getProduct_gating.2 gatedCalls () (by decide!)⟩

/-- C5 (validation gating): on an initialised object, `Validate` throws if and only if
the feed composition is empty or a setpoint is not positive; what it throws is then a
`CapeInvalidArgument`, and `Calculate` throws that same exception, leaving the object
and the world as they were, whatever package is attached. -/
theorem validation_gating (self : RGibbsReactor σ) (w : σ)
    (hi : self.initialized_ = true) :
    ((∃ e, (self.Validate w).result = .error e) ↔
        (self.feed_.composition = [] ∨ self.temperature_ ≤ 0 ∨ self.pressure_ ≤ 0)) ∧
      ∀ e, (self.Validate w).result = .error e →
        (∃ m, e = .cape ⟨.CapeInvalidArgument, m⟩) ∧
          self.Calculate w = ⟨.error e, self, w⟩ := by
  by_cases hf : self.feed_.composition = []
  · have hv := Validate_empty self w hi hf
    refine ⟨⟨fun _ => Or.inl hf, fun _ => ⟨_, by rw [hv]⟩⟩, ?_⟩
    intro e he
    have hc := Calculate_invalid self w e hi he
    rw [hv] at he
    cases he
    exact ⟨⟨_, rfl⟩, hc⟩
  · by_cases hs : self.temperature_ ≤ 0 ∨ self.pressure_ ≤ 0
    · have hv := Validate_setpoint self w hi hf hs
      refine ⟨⟨fun _ => Or.inr hs, fun _ => ⟨_, by rw [hv]⟩⟩, ?_⟩
      intro e he
      have hc := Calculate_invalid self w e hi he
      rw [hv] at he
      cases he
      exact ⟨⟨_, rfl⟩, hc⟩
    · have hv := Validate_pass self w hi hf (not_le.mp fun h => hs (Or.inl h))
        (not_le.mp fun h => hs (Or.inr h))
      refine ⟨⟨?_, ?_⟩, ?_⟩
      · rintro ⟨e, he⟩
        rw [hv] at he
        cases he
      · rintro (h | h)
        · exact absurd h hf
        · exact absurd h hs
      · intro e he
        rw [hv] at he
        cases he

theorem validation_gating_witness :
    emptyFeedReactor.initialized_ = true ∧
      (emptyFeedReactor.Validate ()).result =
        .error (.cape ⟨.CapeInvalidArgument, "进料组成为空"⟩) ∧
      emptyFeedReactor.Calculate () =
        ⟨.error (.cape ⟨.CapeInvalidArgument, "进料组成为空"⟩), emptyFeedReactor, ()⟩ :=
  ⟨rfl, by decide!, ((validation_gating emptyFeedReactor () rfl).2 _ (by decide!)).2⟩

/-- C6 (initialisation): `Initialize` throws if and only if no package is attached, and
then `CapeFailedInitialization`, leaving the object as it was; when it returns normally,
from any state, `initialized_` is set, `calculated_` is clear, and feed, setpoints,
package, product and world are as before. -/
theorem initialize_contract (self : RGibbsReactor σ) (w : σ) :
    ((∃ e, (self.Initialize w).result = .error e) ↔ self.thermo_ = none) ∧
      (∀ e, (self.Initialize w).result = .error e →
        self.Initialize w =
          ⟨.error (.cape ⟨.CapeFailedInitialization, "未配置热力学包"⟩), self, w⟩) ∧
      ((self.Initialize w).result = .ok () →
        self.Initialize w =
          ⟨.ok (), { self with initialized_ := true, calculated_ := false }, w⟩ ∧
        (self.Initialize w).reactor.initialized_ = true ∧
        (self.Initialize w).reactor.calculated_ = false ∧
        (self.Initialize w).reactor.feed_ = self.feed_ ∧
        (self.Initialize w).reactor.temperature_ = self.temperature_ ∧
        (self.Initialize w).reactor.pressure_ = self.pressure_ ∧
        (self.Initialize w).reactor.thermo_ = self.thermo_) := by
  cases hth : self.thermo_ with
  | none => simp [Initialize, hth]
  | some thermo => simp [Initialize, hth]

theorem initialize_contract_witness :
    (((testReactor : RGibbsReactor Unit).Calculate ()).reactor.calculated_ = true ∧
      ((((testReactor : RGibbsReactor Unit).Calculate ()).reactor.Initialize ()).result =
        .ok ())) ∧
      (((testReactor : RGibbsReactor Unit).Calculate ()).reactor.Initialize ()).reactor.initialized_
        = true ∧
      (((testReactor : RGibbsReactor Unit).Calculate ()).reactor.Initialize ()).reactor.calculated_
        = false :=
  ⟨⟨by decide!, by decide!⟩,
    ((initialize_contract (testReactor.Calculate ()).reactor ()).2.2 (by decide!)).2.1,
    ((initialize_contract (testReactor.Calculate ()).reactor ()).2.2 (by decide!)).2.2.1⟩

/-- C7 (termination): `Terminate` returns normally from any state; afterwards both flags
are clear, `getProduct`, `Validate` and `Calculate` throw `CapeInvalidOperation`, and
feed, setpoints, package, product and world are as before. -/
theorem terminate_contract (self : RGibbsReactor σ) (w : σ) :
    (self.Terminate w).result = .ok () ∧
      (self.Terminate w).reactor.initialized_ = false ∧
      (self.Terminate w).reactor.calculated_ = false ∧
      (self.Terminate w).reactor.getProduct =
        .error (.cape ⟨.CapeInvalidOperation, "尚未完成计算"⟩) ∧
      ((self.Terminate w).reactor.Validate (self.Terminate w).world).result =
        .error (.cape ⟨.CapeInvalidOperation, "请先调用 Initialize"⟩) ∧
      ((self.Terminate w).reactor.Calculate (self.Terminate w).world).result =
        .error (.cape ⟨.CapeInvalidOperation, "请先调用 Initialize"⟩) ∧
      (self.Terminate w).reactor.feed_ = self.feed_ ∧
      (self.Terminate w).reactor.temperature_ = self.temperature_ ∧
      (self.Terminate w).reactor.pressure_ = self.pressure_ ∧
      (self.Terminate w).reactor.thermo_ = self.thermo_ ∧
      (self.Terminate w).reactor.product_ = self.product_ ∧
      (self.Terminate w).world = w := by
  refine ⟨rfl, rfl, rfl, ?_, ?_, ?_, rfl, rfl, rfl, rfl, rfl, rfl⟩
  · simp [getProduct, Terminate]
  · rw [Validate_uninitialized _ _ rfl]
  · rw [Calculate_uninitialized _ _ rfl]

/-- In the loop run on a recording package from an empty record, a recorded failure is
what the loop threw. -/
theorem iterate_recording (thermo : ThermoPackage σ) (t : ℚ) (n : Nat) (mu : Composition)
    (p : MaterialPort) (w : σ) (f : Thrown)
    (h : (iterate (recording thermo) t n mu p (w, none)).2.2.2 = some f) :
    (iterate (recording thermo) t n mu p (w, none)).1 = .error f := by
  induction n generalizing mu p w with
  | zero => simp [iterate] at h
  | succ n ih =>
    rw [iterate_succ] at h ⊢
    by_cases hn : sumMoles (adjust mu (lambdaOf mu) p.composition) ≤ 0
    · simp [hn] at h
    · rw [if_neg hn] at h ⊢
      rcases hq : thermo.chemicalPotential (nextProduct t mu p) w with ⟨e | mu1, w1⟩
      · have hr : (recording thermo).chemicalPotential (nextProduct t mu p) (w, none) =
            (.error e, (w1, some e)) := by simp [recording, hq]
        rw [hr] at h ⊢
        simp only [Option.some.injEq] at h
        rw [h]
      · have hr : (recording thermo).chemicalPotential (nextProduct t mu p) (w, none) =
            (.ok mu1, (w1, none)) := by simp [recording, hq]
        rw [hr] at h ⊢
        exact ih mu1 _ w1 h

/-- In the engine run on a recording package from an empty record, a recorded failure is
what the engine threw. -/
theorem performGibbsMinimization_recording (thermo : ThermoPackage σ)
    (self : RGibbsReactor (σ × Option Thrown)) (w : σ) (f : Thrown)
    (hth : self.thermo_ = some (recording thermo))
    (h : (self.performGibbsMinimization (w, none)).world.2 = some f) :
    (self.performGibbsMinimization (w, none)).result = .error f := by
  rcases hq : thermo.chemicalPotential self.startProduct w with ⟨e | mu, w1⟩
  · have hr : (recording thermo).chemicalPotential self.startProduct (w, none) =
        (.error e, (w1, some e)) := by simp [recording, hq]
    rw [performGibbsMinimization_query self _ _ _ e hth hr] at h ⊢
    simp only [Option.some.injEq] at h
    rw [h]
  · have hr : (recording thermo).chemicalPotential self.startProduct (w, none) =
        (.ok mu, (w1, none)) := by simp [recording, hq]
    by_cases ht : sumMoles self.feed_.composition ≤ 0
    · rw [performGibbsMinimization_total self _ _ _ mu hth hr ht] at h
      simp at h
    · have hrec := iterate_recording thermo (sumMoles self.feed_.composition) 20 mu
        self.startProduct w1
      rcases hl : iterate (recording thermo) (sumMoles self.feed_.composition) 20 mu
        self.startProduct (w1, none) with ⟨e | u, p, w2, l2⟩
      · rw [performGibbsMinimization_loop self _ _ _ _ mu e p hth hr ht hl] at h ⊢
        rw [hl] at hrec
        exact hrec f h
      · rw [hl] at hrec
        cases l2 with
        | some f2 => simpa using hrec f2 rfl
        | none =>
          rcases hg : thermo.gibbsEnergy p w2 with ⟨e | g, w3⟩
          · have hgr : (recording thermo).gibbsEnergy p (w2, none) =
                (.error e, (w3, some e)) := by simp [recording, hg]
            rw [performGibbsMinimization_gibbs self _ _ _ _ _ mu p _ hth hr ht hl hgr] at h ⊢
            simp only [Option.some.injEq] at h
            rw [h]
            rfl
          · have hgr : (recording thermo).gibbsEnergy p (w2, none) =
                (.ok g, (w3, none)) := by simp [recording, hg]
            rw [performGibbsMinimization_gibbs self _ _ _ _ _ mu p _ hth hr ht hl hgr] at h
            simp at h

/-- A recording package answers as the package it wraps. -/
theorem recording_chemicalPotential (thermo : ThermoPackage σ) (p : MaterialPort) (w : σ)
    (l : Option Thrown) :
    ((recording thermo).chemicalPotential p (w, l)).1 = (thermo.chemicalPotential p w).1 ∧
      ((recording thermo).chemicalPotential p (w, l)).2.1 =
        (thermo.chemicalPotential p w).2 := by
  rcases hq : thermo.chemicalPotential p w with ⟨e | mu, w1⟩ <;> simp [recording, hq]

/-- The loop run on a recording package throws or returns what it does on the package
itself. -/
theorem iterate_recording_result (thermo : ThermoPackage σ) (t : ℚ) (n : Nat)
    (mu : Composition) (p : MaterialPort) (w : σ) (l : Option Thrown) :
    (iterate (recording thermo) t n mu p (w, l)).1 = (iterate thermo t n mu p w).1 ∧
      (iterate (recording thermo) t n mu p (w, l)).2.1 = (iterate thermo t n mu p w).2.1 ∧
      (iterate (recording thermo) t n mu p (w, l)).2.2.1 =
        (iterate thermo t n mu p w).2.2 := by
  induction n generalizing mu p w l with
  | zero => simp [iterate]
  | succ n ih =>
    rw [iterate_succ, iterate_succ]
    by_cases hn : sumMoles (adjust mu (lambdaOf mu) p.composition) ≤ 0
    · simp [hn]
    · rw [if_neg hn, if_neg hn]
      rcases hq : thermo.chemicalPotential (nextProduct t mu p) w with ⟨e | mu1, w1⟩
      · have hr : (recording thermo).chemicalPotential (nextProduct t mu p) (w, l) =
            (.error e, (w1, some e)) := by simp [recording, hq]
        rw [hr]
        simp
      · have hr : (recording thermo).chemicalPotential (nextProduct t mu p) (w, l) =
            (.ok mu1, (w1, l)) := by simp [recording, hq]
        rw [hr]
        exact ih mu1 _ w1 l

/-- The engine run with the recording package attached throws or returns what it does
with the package itself. -/
theorem performGibbsMinimization_attachRecording (self : RGibbsReactor σ)
    (thermo : ThermoPackage σ) (w : σ) (l : Option Thrown)
    (hth : self.thermo_ = some thermo) :
    ((self.attachRecording thermo).performGibbsMinimization (w, l)).result =
      (self.performGibbsMinimization w).result := by
  have hs : (self.attachRecording thermo).startProduct = self.startProduct := rfl
  have hf : (self.attachRecording thermo).feed_ = self.feed_ := rfl
  rcases hq : thermo.chemicalPotential self.startProduct w with ⟨e | mu, w1⟩
  · have hr : (recording thermo).chemicalPotential (self.attachRecording thermo).startProduct
        (w, l) = (.error e, (w1, some e)) := by simp [recording, hs, hq]
    rw [performGibbsMinimization_query _ _ _ _ e rfl hr,
      performGibbsMinimization_query self w w1 thermo e hth hq]
  · have hr : (recording thermo).chemicalPotential (self.attachRecording thermo).startProduct
        (w, l) = (.ok mu, (w1, l)) := by simp [recording, hs, hq]
    by_cases ht : sumMoles self.feed_.composition ≤ 0
    · rw [performGibbsMinimization_total _ _ _ _ mu rfl hr (by rw [hf]; exact ht),
        performGibbsMinimization_total self w w1 thermo mu hth hq ht]
    · have hsim := iterate_recording_result thermo (sumMoles self.feed_.composition) 20 mu
        self.startProduct w1 l
      rcases hl : iterate thermo (sumMoles self.feed_.composition) 20 mu
        self.startProduct w1 with ⟨e | u, p, w2⟩
      · rcases hlr : iterate (recording thermo) (sumMoles self.feed_.composition) 20 mu
          self.startProduct (w1, l) with ⟨r, pr, w2r, lr⟩
        rw [hl, hlr] at hsim
        obtain ⟨h1, -, -⟩ := hsim
        simp only at h1
        subst h1
        rw [performGibbsMinimization_loop _ _ _ _ _ mu e pr rfl hr (by rw [hf]; exact ht)
            (by rw [hf, hs]; exact hlr),
          performGibbsMinimization_loop self w w1 w2 thermo mu e p hth hq ht hl]
      · rcases hlr : iterate (recording thermo) (sumMoles self.feed_.composition) 20 mu
          self.startProduct (w1, l) with ⟨r, pr, w2r, lr⟩
        rw [hl, hlr] at hsim
        obtain ⟨h1, h2, h3⟩ := hsim
        simp only at h1 h2 h3
        subst h1 h2 h3
        rcases hg : thermo.gibbsEnergy pr w2r with ⟨e | g, w3⟩
        · have hgr : (recording thermo).gibbsEnergy pr (w2r, lr) =
              (.error e, (w3, some e)) := by simp [recording, hg]
          rw [performGibbsMinimization_gibbs _ _ _ _ _ _ mu pr _ rfl hr
              (by rw [hf]; exact ht) (by rw [hf, hs]; exact hlr) hgr,
            performGibbsMinimization_gibbs self w w1 w2r w3 thermo mu pr _ hth hq ht hl hg]
        · have hgr : (recording thermo).gibbsEnergy pr (w2r, lr) =
              (.ok g, (w3, lr)) := by simp [recording, hg]
          rw [performGibbsMinimization_gibbs _ _ _ _ _ _ mu pr _ rfl hr
              (by rw [hf]; exact ht) (by rw [hf, hs]; exact hlr) hgr,
            performGibbsMinimization_gibbs self w w1 w2r w3 thermo mu pr _ hth hq ht hl hg]

/-- `Validate` throws or returns the same with the recording package attached. -/
theorem Validate_attachRecording (self : RGibbsReactor σ) (thermo : ThermoPackage σ)
    (w : σ) (l : Option Thrown) :
    ((self.attachRecording thermo).Validate (w, l)).result = (self.Validate w).result := by
  rcases Bool.eq_false_or_eq_true self.initialized_ with hi | hi
  · by_cases hf : self.feed_.composition = []
    · rw [Validate_empty self w hi hf, Validate_empty (self.attachRecording thermo) _ hi hf]
    · by_cases hs : self.temperature_ ≤ 0 ∨ self.pressure_ ≤ 0
      · rw [Validate_setpoint self w hi hf hs,
          Validate_setpoint (self.attachRecording thermo) _ hi hf hs]
      · have ht : 0 < self.temperature_ := not_le.mp fun h => hs (Or.inl h)
        have hp : 0 < self.pressure_ := not_le.mp fun h => hs (Or.inr h)
        rw [Validate_pass self w hi hf ht hp,
          Validate_pass (self.attachRecording thermo) _ hi hf ht hp]
  · rw [Validate_uninitialized self w hi,
      Validate_uninitialized (self.attachRecording thermo) _ hi]

/-- C8 (error mapping at the `Calculate` boundary): on an initialised object that passes
`Validate`, whenever a query to the attached package made during `Calculate` fails with
`f`, as observed by running the same call with the recording version of the package
attached, `Calculate` throws what its handlers make of `f`: a `CapeCalculationFailed`
with the message `m` when `f` is another `std::exception` with message `m`, and the very
`CapeOpenException` of code `k` and message `m` when `f` is one. -/
theorem error_mapping (self : RGibbsReactor σ) (thermo : ThermoPackage σ) (w : σ)
    (hth : self.thermo_ = some thermo) (hi : self.initialized_ = true)
    (hv : (self.Validate w).result = .ok ()) :
    (∀ f, ((self.attachRecording thermo).Calculate (w, none)).world.2 = some f →
        (self.Calculate w).result = .error (catchCalculate f)) ∧
      (∀ m, ((self.attachRecording thermo).Calculate (w, none)).world.2 = some (.stdex m) →
        (self.Calculate w).result = .error (.cape ⟨.CapeCalculationFailed, m⟩)) ∧
      (∀ k m, ((self.attachRecording thermo).Calculate (w, none)).world.2 =
          some (.cape ⟨k, m⟩) →
        (self.Calculate w).result = .error (.cape ⟨k, m⟩)) := by
  have hvr : ((self.attachRecording thermo).Validate (w, none)).result = .ok () := by
    rw [Validate_attachRecording, hv]
  have hsim := performGibbsMinimization_attachRecording self thermo w none hth
  have key : ∀ f, ((self.attachRecording thermo).Calculate (w, none)).world.2 = some f →
      (self.Calculate w).result = .error (catchCalculate f) := by
    intro f hf
    rcases he : ((self.attachRecording thermo).performGibbsMinimization (w, none)).result
      with e | u
    · rw [Calculate_engine_error (self.attachRecording thermo) _ e hi hvr he] at hf
      have hrec := performGibbsMinimization_recording thermo _ w f rfl hf
      rw [he] at hrec
      cases hrec
      rw [Calculate_engine_error self w f hi hv (by rw [← hsim, he])]
    · rw [Calculate_engine_ok (self.attachRecording thermo) _ hi hvr he] at hf
      have hrec := performGibbsMinimization_recording thermo _ w f rfl hf
      rw [he] at hrec
      cases hrec
  exact ⟨key, fun m hm => key _ hm, fun k m hm => key _ hm⟩

theorem error_mapping_witness :
    (((testReactorWith (thirdQueryFails (.stdex "boom"))).attachRecording
        (thirdQueryFails (.stdex "boom"))).Calculate (0, none)).world.2 =
        some (.stdex "boom") ∧
      ((testReactorWith (thirdQueryFails (.stdex "boom"))).Calculate 0).result =
        .error (.cape ⟨.CapeCalculationFailed, "boom"⟩) ∧
      (((testReactorWith (thirdQueryFails (.cape ⟨.CapeInvalidArgument, "bad state"⟩))).attachRecording
        (thirdQueryFails (.cape ⟨.CapeInvalidArgument, "bad state"⟩))).Calculate
          (0, none)).world.2 = some (.cape ⟨.CapeInvalidArgument, "bad state"⟩) ∧
      ((testReactorWith (thirdQueryFails (.cape ⟨.CapeInvalidArgument, "bad state"⟩))).Calculate
          0).result = .error (.cape ⟨.CapeInvalidArgument, "bad state"⟩) :=
  ⟨by decide!,
    (error_mapping (testReactorWith (thirdQueryFails (.stdex "boom")))
      (thirdQueryFails (.stdex "boom")) 0 rfl rfl (by decide!)).2.1 "boom" (by decide!),
    by decide!,
    (error_mapping (testReactorWith (thirdQueryFails (.cape ⟨.CapeInvalidArgument, "bad state"⟩)))
      (thirdQueryFails (.cape ⟨.CapeInvalidArgument, "bad state"⟩)) 0
      rfl rfl (by decide!)).2.2 .CapeInvalidArgument "bad state" (by decide!)⟩

/-- C9, as stated, fails: on the initialised object with feed `A: 0`, positive setpoints
and a package whose query throws a `CapeInvalidArgument`, `Calculate` throws that
`CapeInvalidArgument` and not the `CapeCalculationFailed` of the total-moles check, while
with `DummyThermo` attached it throws the latter: the package does change the outcome. -/
theorem invalid_total_counterexample :
    (zeroFeedReactor (σ := Unit)
        (failingThermo (.cape ⟨.CapeInvalidArgument, "bad state"⟩))).initialized_ = true ∧
      (zeroFeedReactor (σ := Unit)
        (failingThermo (.cape ⟨.CapeInvalidArgument, "bad state"⟩))).feed_.composition ≠ [] ∧
      0 < (zeroFeedReactor (σ := Unit)
        (failingThermo (.cape ⟨.CapeInvalidArgument, "bad state"⟩))).temperature_ ∧
      0 < (zeroFeedReactor (σ := Unit)
        (failingThermo (.cape ⟨.CapeInvalidArgument, "bad state"⟩))).pressure_ ∧
      sumMoles (zeroFeedReactor (σ := Unit)
        (failingThermo (.cape ⟨.CapeInvalidArgument, "bad state"⟩))).feed_.composition ≤ 0 ∧
      ((zeroFeedReactor (failingThermo (.cape ⟨.CapeInvalidArgument, "bad state"⟩))).Calculate
        ()).result = .error (.cape ⟨.CapeInvalidArgument, "bad state"⟩) ∧
      ((zeroFeedReactor (failingThermo (.cape ⟨.CapeInvalidArgument, "bad state"⟩))).Calculate
        ()).result ≠ .error (.cape ⟨.CapeCalculationFailed, "物料摩尔数无效"⟩) ∧
      ((zeroFeedReactor DummyThermo).Calculate ()).result =
        .error (.cape ⟨.CapeCalculationFailed, "物料摩尔数无效"⟩) := by
  refine ⟨rfl, by decide, by decide!, by decide!, by decide!, by decide!, by decide!,
    by decide!⟩

/-- C9, amended: on an initialised object with a package attached, a non-empty feed,
positive setpoints and a feed total that is not positive, `Calculate` first queries the
package for the potentials of the feed at the setpoints. When that query returns,
`Calculate` throws `CapeCalculationFailed` with the message of the total-moles check,
whatever potentials were returned; when it throws `e`, `Calculate` throws what its
handlers make of `e`. Either way the product is left as the feed at the setpoints and
the world as the query left it. -/
theorem invalid_total (self : RGibbsReactor σ) (w : σ) (thermo : ThermoPackage σ)
    (hi : self.initialized_ = true) (hth : self.thermo_ = some thermo)
    (hf : self.feed_.composition ≠ []) (ht : 0 < self.temperature_)
    (hp : 0 < self.pressure_) (hs : sumMoles self.feed_.composition ≤ 0) :
    (∀ mu w1, thermo.chemicalPotential self.startProduct w = (.ok mu, w1) →
        self.Calculate w =
          ⟨.error (.cape ⟨.CapeCalculationFailed, "物料摩尔数无效"⟩),
            { self with product_ := self.startProduct }, w1⟩) ∧
      (∀ e w1, thermo.chemicalPotential self.startProduct w = (.error e, w1) →
        self.Calculate w =
          ⟨.error (catchCalculate e), { self with product_ := self.startProduct }, w1⟩) := by
  have hv : (self.Validate w).result = .ok () := by rw [Validate_pass self w hi hf ht hp]
  constructor
  · intro mu w1 hq
    have he := performGibbsMinimization_total self w w1 thermo mu hth hq hs
    rw [Calculate_engine_error self w _ hi hv (by rw [he]), he]
    rfl
  · intro e w1 hq
    have he := performGibbsMinimization_query self w w1 thermo e hth hq
    rw [Calculate_engine_error self w _ hi hv (by rw [he]), he]

theorem invalid_total_witness :
    (zeroFeedReactor (σ := Nat) countingThermo).Calculate 0 =
      ⟨.error (.cape ⟨.CapeCalculationFailed, "物料摩尔数无效"⟩),
        { zeroFeedReactor (σ := Nat) countingThermo with
          product_ := (zeroFeedReactor (σ := Nat) countingThermo).startProduct }, 1⟩ :=
  (invalid_total (zeroFeedReactor countingThermo) 0 countingThermo rfl rfl (by decide)
    (by decide!) (by decide!) (by decide!)).1 [("A", 0)] 1 (by decide!)

/-- C10, evaluated on the code: after `staleCalls` the second `Calculate` has thrown,
`calculated_` is still set and `getProduct` returns the feed `A: 0` at the setpoints,
which the engine had written before it threw, while the output of the last `Calculate`
that returned normally is a composition of total `3`. -/
theorem product_validity_fails :
    calculateSucceeds .Calculate (run (staleCalls.take 5) construct ()).1 () = true ∧
      ((run (staleCalls.take 7) construct ()).1.Calculate ()).result =
        .error (.cape ⟨.CapeCalculationFailed, "物料摩尔数无效"⟩) ∧
      (run staleCalls construct ()).1.calculated_ = true ∧
      (run staleCalls construct ()).1.getProduct =
        .ok { name := "Feed", composition := [("A", 0)], temperature := 500,
              pressure := 200000 } ∧
      (lastEngineOutput staleCalls construct () none).map
        (fun p => sumMoles p.composition) = some 3 ∧
      lastEngineOutput staleCalls construct () none ≠
        some (run staleCalls construct ()).1.product_ := by
  refine ⟨by decide!, by decide!, by decide!, by decide!, by decide!, by decide!⟩

/-- A `Calculate` that returns normally assigns to `product_` and sets `calculated_`;
every other field is as it was. -/
theorem Calculate_ok_frame (self : RGibbsReactor σ) (w : σ)
    (h : (self.Calculate w).result = .ok ()) :
    (self.Calculate w).reactor =
      { self with product_ := (self.Calculate w).reactor.product_, calculated_ := true } := by
  obtain ⟨hi, hv, he⟩ := Calculate_ok self w h
  have hfr := (performGibbsMinimization_frame self w).1
  rw [Calculate_engine_ok self w hi hv he]
  simp only
  rw [hfr]

/-- One public call keeps the order of the flags: `calculated_` set only with
`initialized_` set. -/
theorem apply_flag_order (op : Op σ) (self : RGibbsReactor σ) (w : σ)
    (h : self.calculated_ = true → self.initialized_ = true) :
    (op.apply self w).reactor.calculated_ = true →
      (op.apply self w).reactor.initialized_ = true := by
  cases op with
  | Initialize =>
    simp only [Op.apply, Initialize]
    split
    · exact h
    · simp
  | Validate =>
    simp only [Op.apply]
    rw [Validate_frame]
    exact h
  | Calculate =>
    simp only [Op.apply]
    rcases hr : (self.Calculate w).result with e | u
    · rw [Calculate_error_frame self w e hr]
      exact h
    · rw [Calculate_ok_frame self w hr]
      intro _
      exact (Calculate_ok self w hr).1
  | Terminate => simp [Op.apply, Terminate]
  | setFeed feed => simpa [Op.apply, setFeed] using h
  | setThermoPackage pkg => simpa [Op.apply, setThermoPackage] using h
  | setTemperature t => simpa [Op.apply, setTemperature] using h
  | setPressure p => simpa [Op.apply, setPressure] using h
  | getProduct => simpa [Op.apply] using h

/-- A run of public calls keeps the order of the flags. -/
theorem run_flag_order (ops : List (Op σ)) (self : RGibbsReactor σ) (w : σ)
    (h : self.calculated_ = true → self.initialized_ = true) :
    (run ops self w).1.calculated_ = true → (run ops self w).1.initialized_ = true := by
  induction ops generalizing self w with
  | nil => simpa [run] using h
  | cons op ops ih =>
    simp only [run]
    exact ih _ _ (apply_flag_order op self w h)

/-- C11, as stated, fails: in the state CALCULATED with the feed `A: 0`, `Calculate`
throws and `calculated_` is still set afterwards, so `getProduct` does not throw
`CapeInvalidOperation`. -/
theorem calculate_reset_counterexample :
    calculatedZeroFeed.initialized_ = true ∧
      calculatedZeroFeed.calculated_ = true ∧
      (calculatedZeroFeed.Calculate ()).result =
        .error (.cape ⟨.CapeCalculationFailed, "物料摩尔数无效"⟩) ∧
      (calculatedZeroFeed.Calculate ()).reactor.calculated_ = true ∧
      (calculatedZeroFeed.Calculate ()).reactor.getProduct ≠
        .error (.cape ⟨.CapeInvalidOperation, "尚未完成计算"⟩) := by
  refine ⟨by decide!, by decide!, by decide!, by decide!, by decide!⟩

/-- C11, amended: on an initialised object, a `Calculate` that throws leaves
`calculated_` with the value it had before the call and `initialized_` set; so from the
state READY (`calculated_` clear) the object stays in READY and `getProduct` throws
`CapeInvalidOperation`, and from the state CALCULATED `calculated_` stays set. -/
theorem calculate_failure_flags (self : RGibbsReactor σ) (w : σ) (e : Thrown)
    (hi : self.initialized_ = true) (h : (self.Calculate w).result = .error e) :
    (self.Calculate w).reactor.calculated_ = self.calculated_ ∧
      (self.Calculate w).reactor.initialized_ = true ∧
      (self.calculated_ = false →
        (self.Calculate w).reactor.getProduct =
          .error (.cape ⟨.CapeInvalidOperation, "尚未完成计算"⟩)) ∧
      (self.calculated_ = true → (self.Calculate w).reactor.calculated_ = true) := by
  have hfr := Calculate_error_frame self w e h
  have hc : (self.Calculate w).reactor.calculated_ = self.calculated_ := by rw [hfr]
  have hin : (self.Calculate w).reactor.initialized_ = self.initialized_ := by rw [hfr]
  refine ⟨hc, hin.trans hi, ?_, fun ht => hc.trans ht⟩
  intro hf
  simp [getProduct, hc, hf]

theorem calculate_failure_flags_witness :
    (emptyFeedReactor.Calculate ()).result =
        .error (.cape ⟨.CapeInvalidArgument, "进料组成为空"⟩) ∧
      (emptyFeedReactor.Calculate ()).reactor.calculated_ = false ∧
      (emptyFeedReactor.Calculate ()).reactor.initialized_ = true ∧
      (emptyFeedReactor.Calculate ()).reactor.getProduct =
        .error (.cape ⟨.CapeInvalidOperation, "尚未完成计算"⟩) :=
  ⟨by decide!,
    (calculate_failure_flags emptyFeedReactor () _ rfl
      (show (emptyFeedReactor.Calculate ()).result =
        .error (.cape ⟨.CapeInvalidArgument, "进料组成为空"⟩) by decide!)).1,
    (calculate_failure_flags emptyFeedReactor () _ rfl
      (show (emptyFeedReactor.Calculate ()).result =
        .error (.cape ⟨.CapeInvalidArgument, "进料组成为空"⟩) by decide!)).2.1,
    (calculate_failure_flags emptyFeedReactor () _ rfl
      (show (emptyFeedReactor.Calculate ()).result =
        .error (.cape ⟨.CapeInvalidArgument, "进料组成为空"⟩) by decide!)).2.2.1 rfl⟩

/-- C12 (no partial success): from any state, a `Calculate` that throws leaves
`calculated_` equal to its value before the call, a `Calculate` that returns normally
sets it, and a `Calculate` that throws after a sequence of public calls on a newly
constructed object in which no `Calculate` returned normally leaves it clear. -/
theorem no_partial_success (self : RGibbsReactor σ) (w : σ) :
    (∀ e, (self.Calculate w).result = .error e →
        (self.Calculate w).reactor.calculated_ = self.calculated_) ∧
      ((self.Calculate w).result = .ok () →
        (self.Calculate w).reactor.calculated_ = true) ∧
      (∀ (ops : List (Op σ)) (w0 : σ) (e : Thrown),
        noCalculateSucceeded ops construct w0 = true →
        (((run ops construct w0).1).Calculate (run ops construct w0).2).result = .error e →
        (((run ops construct w0).1).Calculate (run ops construct w0).2).reactor.calculated_ =
          false) := by
  refine ⟨?_, ?_, ?_⟩
  · intro e h
    rw [Calculate_error_frame self w e h]
  · intro h
    rw [Calculate_ok_frame self w h]
  · intro ops w0 e hn h
    rw [Calculate_error_frame _ _ e h]
    exact run_calculated_false ops construct w0 rfl hn

theorem no_partial_success_witness :
    (calculatedZeroFeed.Calculate ()).result =
        .error (.cape ⟨.CapeCalculationFailed, "物料摩尔数无效"⟩) ∧
      (calculatedZeroFeed.Calculate ()).reactor.calculated_ =
        calculatedZeroFeed.calculated_ ∧
      ((testReactor : RGibbsReactor Unit).Calculate ()).result = .ok () ∧
      ((testReactor : RGibbsReactor Unit).Calculate ()).reactor.calculated_ = true :=
  ⟨by decide!,
    (no_partial_success calculatedZeroFeed ()).1 _
      (show (calculatedZeroFeed.Calculate ()).result =
        .error (.cape ⟨.CapeCalculationFailed, "物料摩尔数无效"⟩) by decide!),
    by decide!,
    (no_partial_success testReactor ()).2.1 (by decide!)⟩

/-- C13 (setters are pure assignment): each of `setFeed`, `setThermoPackage`,
`setTemperature` and `setPressure` returns normally for every argument, stores the
argument in its own field and leaves every other field and the world as they were; in
particular, called after a `Calculate` that returned normally, each leaves `calculated_`
set. -/
theorem setters_pure_assignment (self : RGibbsReactor σ) (w : σ) (feed : MaterialPort)
    (pkg : Option (ThermoPackage σ)) (t p : ℚ) :
    ((self.setFeed feed w).result = .ok () ∧
        (self.setFeed feed w).reactor.feed_ = feed ∧
        (self.setFeed feed w).reactor.initialized_ = self.initialized_ ∧
        (self.setFeed feed w).reactor.calculated_ = self.calculated_ ∧
        (self.setFeed feed w).reactor.product_ = self.product_ ∧
        (self.setFeed feed w).reactor.temperature_ = self.temperature_ ∧
        (self.setFeed feed w).reactor.pressure_ = self.pressure_ ∧
        (self.setFeed feed w).reactor.thermo_ = self.thermo_ ∧
        (self.setFeed feed w).world = w) ∧
      ((self.setThermoPackage pkg w).result = .ok () ∧
        (self.setThermoPackage pkg w).reactor.thermo_ = pkg ∧
        (self.setThermoPackage pkg w).reactor.initialized_ = self.initialized_ ∧
        (self.setThermoPackage pkg w).reactor.calculated_ = self.calculated_ ∧
        (self.setThermoPackage pkg w).reactor.feed_ = self.feed_ ∧
        (self.setThermoPackage pkg w).reactor.product_ = self.product_ ∧
        (self.setThermoPackage pkg w).reactor.temperature_ = self.temperature_ ∧
        (self.setThermoPackage pkg w).reactor.pressure_ = self.pressure_ ∧
        (self.setThermoPackage pkg w).world = w) ∧
      ((self.setTemperature t w).result = .ok () ∧
        (self.setTemperature t w).reactor.temperature_ = t ∧
        (self.setTemperature t w).reactor.initialized_ = self.initialized_ ∧
        (self.setTemperature t w).reactor.calculated_ = self.calculated_ ∧
        (self.setTemperature t w).reactor.feed_ = self.feed_ ∧
        (self.setTemperature t w).reactor.product_ = self.product_ ∧
        (self.setTemperature t w).reactor.pressure_ = self.pressure_ ∧
        (self.setTemperature t w).reactor.thermo_ = self.thermo_ ∧
        (self.setTemperature t w).world = w) ∧
      ((self.setPressure p w).result = .ok () ∧
        (self.setPressure p w).reactor.pressure_ = p ∧
        (self.setPressure p w).reactor.initialized_ = self.initialized_ ∧
        (self.setPressure p w).reactor.calculated_ = self.calculated_ ∧
        (self.setPressure p w).reactor.feed_ = self.feed_ ∧
        (self.setPressure p w).reactor.product_ = self.product_ ∧
        (self.setPressure p w).reactor.temperature_ = self.temperature_ ∧
        (self.setPressure p w).reactor.thermo_ = self.thermo_ ∧
        (self.setPressure p w).world = w) ∧
      ((self.Calculate w).result = .ok () →
        ((self.Calculate w).reactor.setFeed feed (self.Calculate w).world).reactor.calculated_ =
            true ∧
          ((self.Calculate w).reactor.setThermoPackage pkg
            (self.Calculate w).world).reactor.calculated_ = true ∧
          ((self.Calculate w).reactor.setTemperature t
            (self.Calculate w).world).reactor.calculated_ = true ∧
          ((self.Calculate w).reactor.setPressure p
            (self.Calculate w).world).reactor.calculated_ = true) := by
  refine ⟨⟨rfl, rfl, rfl, rfl, rfl, rfl, rfl, rfl, rfl⟩,
    ⟨rfl, rfl, rfl, rfl, rfl, rfl, rfl, rfl, rfl⟩,
    ⟨rfl, rfl, rfl, rfl, rfl, rfl, rfl, rfl, rfl⟩,
    ⟨rfl, rfl, rfl, rfl, rfl, rfl, rfl, rfl, rfl⟩, ?_⟩
  intro h
  have hc : (self.Calculate w).reactor.calculated_ = true := by
    rw [Calculate_ok_frame self w h]
  exact ⟨hc, hc, hc, hc⟩

theorem setters_pure_assignment_witness :
    ((testReactor : RGibbsReactor Unit).Calculate ()).result = .ok () ∧
      (((testReactor : RGibbsReactor Unit).Calculate ()).reactor.setFeed {} ()).reactor.calculated_
        = true ∧
      (((testReactor : RGibbsReactor Unit).Calculate ()).reactor.setThermoPackage none
        ()).reactor.calculated_ = true ∧
      (((testReactor : RGibbsReactor Unit).Calculate ()).reactor.setTemperature (-1)
        ()).reactor.calculated_ = true ∧
      (((testReactor : RGibbsReactor Unit).Calculate ()).reactor.setPressure 0
        ()).reactor.calculated_ = true :=
  ⟨by decide!,
    (setters_pure_assignment testReactor () {} none (-1) 0).2.2.2.2 (by decide!)⟩

/-- C19, evaluated on the code: after `detachCalls` the object has `initialized_` set and
no package attached, it passes `Validate`, and `Calculate` reaches the first query of the
engine and calls through the empty `shared_ptr`. -/
theorem model_attached_fails :
    (run detachCalls construct ()).1.initialized_ = true ∧
      (run detachCalls construct ()).1.thermo_.isNone = true ∧
      ((run detachCalls construct ()).1.Validate ()).result = .ok () ∧
      ((run detachCalls construct ()).1.Calculate ()).result = .error .nullDeref := by
  refine ⟨by decide!, by decide!, by decide!, by decide!⟩

/-- C20 (flag ordering): in every state reached from a newly constructed object by a
sequence of public calls, returning or throwing, `calculated_` set implies
`initialized_` set; no such state has `calculated_` set and `initialized_` clear. -/
theorem flag_ordering (ops : List (Op σ)) (w : σ) :
    ((run ops construct w).1.calculated_ = true →
        (run ops construct w).1.initialized_ = true) ∧
      ¬ ((run ops construct w).1.calculated_ = true ∧
        (run ops construct w).1.initialized_ = false) := by
  have h := run_flag_order ops (construct : RGibbsReactor σ) w (by intro hc; cases hc)
  refine ⟨h, ?_⟩
  rintro ⟨hc, hi⟩
  rw [h hc] at hi
  cases hi

theorem flag_ordering_witness :
    (run staleCalls construct ()).1.calculated_ = true ∧
      (run staleCalls construct ()).1.initialized_ = true :=
  ⟨by decide!, (flag_ordering staleCalls ()).1 (by decide!)⟩

/-- An object on which `Validate` returns normally is initialised, has a non-empty feed
composition and positive setpoints. -/
theorem Validate_ok (self : RGibbsReactor σ) (w : σ)
    (h : (self.Validate w).result = .ok ()) :
    self.initialized_ = true ∧ self.feed_.composition ≠ [] ∧ 0 < self.temperature_ ∧
      0 < self.pressure_ := by
  rcases Bool.eq_false_or_eq_true self.initialized_ with hi | hi
  · by_cases hf : self.feed_.composition = []
    · rw [Validate_empty self w hi hf] at h
      simp at h
    · by_cases hs : self.temperature_ ≤ 0 ∨ self.pressure_ ≤ 0
      · rw [Validate_setpoint self w hi hf hs] at h
        simp at h
      · exact ⟨hi, hf, not_le.mp fun h => hs (Or.inl h), not_le.mp fun h => hs (Or.inr h)⟩
  · rw [Validate_uninitialized self w hi] at h
    simp at h

/-- With a package whose answers do not depend on the world, the loop throws or returns
the same and leaves the same product from any two worlds. -/
theorem iterate_deterministic (thermo : ThermoPackage σ)
    (hcp : ∀ p w w', (thermo.chemicalPotential p w).1 = (thermo.chemicalPotential p w').1)
    (t : ℚ) (n : Nat) (mu : Composition) (p : MaterialPort) (w w' : σ) :
    (iterate thermo t n mu p w).1 = (iterate thermo t n mu p w').1 ∧
      (iterate thermo t n mu p w).2.1 = (iterate thermo t n mu p w').2.1 := by
  induction n generalizing mu p w w' with
  | zero => simp [iterate]
  | succ n ih =>
    rw [iterate_succ, iterate_succ]
    by_cases hn : sumMoles (adjust mu (lambdaOf mu) p.composition) ≤ 0
    · simp [hn]
    · rw [if_neg hn, if_neg hn]
      have hq := hcp (nextProduct t mu p) w w'
      rcases h1 : thermo.chemicalPotential (nextProduct t mu p) w with ⟨r1, w1⟩
      rcases h2 : thermo.chemicalPotential (nextProduct t mu p) w' with ⟨r2, w2⟩
      rw [h1, h2] at hq
      simp only at hq
      subst hq
      cases r1 with
      | error e => simp
      | ok mu1 => exact ih mu1 _ w1 w2

/-- With a package whose answers do not depend on the world, the engine throws or
returns the same and leaves the same product on any two objects with the same feed,
setpoints and package, from any two worlds. -/
theorem performGibbsMinimization_deterministic (thermo : ThermoPackage σ)
    (hcp : ∀ p w w', (thermo.chemicalPotential p w).1 = (thermo.chemicalPotential p w').1)
    (hge : ∀ p w w', (thermo.gibbsEnergy p w).1 = (thermo.gibbsEnergy p w').1)
    (s1 s2 : RGibbsReactor σ) (w1 w2 : σ)
    (hth1 : s1.thermo_ = some thermo) (hth2 : s2.thermo_ = some thermo)
    (hf : s2.feed_ = s1.feed_) (ht : s2.temperature_ = s1.temperature_)
    (hp : s2.pressure_ = s1.pressure_) :
    (s2.performGibbsMinimization w2).result = (s1.performGibbsMinimization w1).result ∧
      (s2.performGibbsMinimization w2).reactor.product_ =
        (s1.performGibbsMinimization w1).reactor.product_ := by
  have hsp : s2.startProduct = s1.startProduct := by
    simp [startProduct, hf, ht, hp]
  have hq := hcp s1.startProduct w1 w2
  rcases hq1 : thermo.chemicalPotential s1.startProduct w1 with ⟨r1, v1⟩
  rcases hq2 : thermo.chemicalPotential s1.startProduct w2 with ⟨r2, v2⟩
  rw [hq1, hq2] at hq
  simp only at hq
  subst hq
  have hq2' : thermo.chemicalPotential s2.startProduct w2 = (r1, v2) := by rw [hsp, hq2]
  cases r1 with
  | error e =>
    rw [performGibbsMinimization_query s1 w1 v1 thermo e hth1 hq1,
      performGibbsMinimization_query s2 w2 v2 thermo e hth2 hq2', hsp]
    exact ⟨rfl, rfl⟩
  | ok mu =>
    by_cases htot : sumMoles s1.feed_.composition ≤ 0
    · rw [performGibbsMinimization_total s1 w1 v1 thermo mu hth1 hq1 htot,
        performGibbsMinimization_total s2 w2 v2 thermo mu hth2 hq2' (by rw [hf]; exact htot),
        hsp]
      exact ⟨rfl, rfl⟩
    · have hdet := iterate_deterministic thermo hcp (sumMoles s1.feed_.composition) 20 mu
        s1.startProduct v1 v2
      rcases hl1 : iterate thermo (sumMoles s1.feed_.composition) 20 mu s1.startProduct v1
        with ⟨l1, p1, u1⟩
      rcases hl2 : iterate thermo (sumMoles s1.feed_.composition) 20 mu s1.startProduct v2
        with ⟨l2, p2, u2⟩
      rw [hl1, hl2] at hdet
      obtain ⟨hd1, hd2⟩ := hdet
      simp only at hd1 hd2
      subst hd1 hd2
      have hl2' : iterate thermo (sumMoles s2.feed_.composition) 20 mu s2.startProduct v2 =
          (l1, p1, u2) := by rw [hf, hsp, hl2]
      have htot2 : ¬ sumMoles s2.feed_.composition ≤ 0 := by rw [hf]; exact htot
      cases l1 with
      | error e =>
        rw [performGibbsMinimization_loop s1 w1 v1 u1 thermo mu e p1 hth1 hq1 htot hl1,
          performGibbsMinimization_loop s2 w2 v2 u2 thermo mu e p1 hth2 hq2' htot2 hl2']
        exact ⟨rfl, rfl⟩
      | ok u =>
        have hg := hge p1 u1 u2
        rcases hg1 : thermo.gibbsEnergy p1 u1 with ⟨g1, x1⟩
        rcases hg2 : thermo.gibbsEnergy p1 u2 with ⟨g2, x2⟩
        rw [hg1, hg2] at hg
        simp only at hg
        subst hg
        rw [performGibbsMinimization_gibbs s1 w1 v1 u1 x1 thermo mu p1 g1 hth1 hq1 htot hl1
            hg1,
          performGibbsMinimization_gibbs s2 w2 v2 u2 x2 thermo mu p1 g1 hth2 hq2' htot2 hl2'
            hg2]
        exact ⟨rfl, rfl⟩

/-- C14 (determinism): with a package whose answers depend only on the state it is
given, a `Calculate` that returns normally on one object returns normally on every
initialised object with the same feed, setpoints and package, whatever its stored
product, its `calculated_` flag and the world, and `getProduct` then returns the same
product on both; in particular a second `Calculate` run right after the first returns
the same product. -/
theorem determinism (thermo : ThermoPackage σ)
    (hcp : ∀ p w w', (thermo.chemicalPotential p w).1 = (thermo.chemicalPotential p w').1)
    (hge : ∀ p w w', (thermo.gibbsEnergy p w).1 = (thermo.gibbsEnergy p w').1)
    (s1 s2 : RGibbsReactor σ) (w1 w2 : σ)
    (hth1 : s1.thermo_ = some thermo) (hth2 : s2.thermo_ = some thermo)
    (hf : s2.feed_ = s1.feed_) (ht : s2.temperature_ = s1.temperature_)
    (hp : s2.pressure_ = s1.pressure_) (hi2 : s2.initialized_ = true)
    (h1 : (s1.Calculate w1).result = .ok ()) :
    ((s2.Calculate w2).result = .ok () ∧
        (s2.Calculate w2).reactor.getProduct = (s1.Calculate w1).reactor.getProduct ∧
        (s1.Calculate w1).reactor.getProduct = .ok (s1.Calculate w1).reactor.product_) ∧
      (((s1.Calculate w1).reactor.Calculate (s1.Calculate w1).world).result = .ok () ∧
        ((s1.Calculate w1).reactor.Calculate (s1.Calculate w1).world).reactor.getProduct =
          (s1.Calculate w1).reactor.getProduct) := by
  have key : ∀ (s : RGibbsReactor σ) (v : σ), s.thermo_ = some thermo → s.feed_ = s1.feed_ →
      s.temperature_ = s1.temperature_ → s.pressure_ = s1.pressure_ →
      s.initialized_ = true →
      (s.Calculate v).result = .ok () ∧
        (s.Calculate v).reactor.getProduct = (s1.Calculate w1).reactor.getProduct ∧
        (s1.Calculate w1).reactor.getProduct = .ok (s1.Calculate w1).reactor.product_ := by
    intro s v hth hfs hts hps his
    obtain ⟨hi1, hv1, he1⟩ := Calculate_ok s1 w1 h1
    obtain ⟨-, hne, htp, hpp⟩ := Validate_ok s1 w1 hv1
    have hv : (s.Validate v).result = .ok () := by
      rw [Validate_pass s v his (by rw [hfs]; exact hne) (by rw [hts]; exact htp)
        (by rw [hps]; exact hpp)]
    obtain ⟨hr, hprod⟩ := performGibbsMinimization_deterministic thermo hcp hge s1 s w1 v
      hth1 hth hfs hts hps
    have he : (s.performGibbsMinimization v).result = .ok () := by rw [hr, he1]
    rw [Calculate_engine_ok s v his hv he, Calculate_engine_ok s1 w1 hi1 hv1 he1]
    simp [getProduct, hprod]
  refine ⟨key s2 w2 hth2 hf ht hp hi2, ?_⟩
  have hfr := Calculate_ok_frame s1 w1 h1
  have h2 := key (s1.Calculate w1).reactor (s1.Calculate w1).world
    (by rw [hfr]; exact hth1) (by rw [hfr]) (by rw [hfr]) (by rw [hfr])
    (by rw [hfr]; exact (Calculate_ok s1 w1 h1).1)
  exact ⟨h2.1, h2.2.1⟩

theorem determinism_witness :
    ((testReactorWith countingThermo).Calculate 0).result = .ok () ∧
      (({ testReactorWith countingThermo with
          calculated_ := true, product_ := testFeed } : RGibbsReactor Nat).Calculate
        5).reactor.getProduct =
        ((testReactorWith countingThermo).Calculate 0).reactor.getProduct :=
  ⟨by decide!,
    (determinism countingThermo (fun _ _ _ => rfl) (fun _ _ _ => rfl)
      (testReactorWith countingThermo)
      { testReactorWith countingThermo with calculated_ := true, product_ := testFeed }
      0 5 rfl rfl rfl rfl rfl rfl (by decide!)).1.2.1⟩

/-- C15 (reference scenario): on the object configured as in
`test_successful_calculation`, with `DummyThermo`, `Initialize` and then `Calculate`
return normally and `getProduct` returns temperature `500`, pressure `200000` and the
species `A` and `B` with strictly positive amounts whose sum is exactly `3`. -/
theorem reference_scenario :
    ((run (testCalls.take 4) construct ()).1.Initialize ()).result = .ok () ∧
      ((run (testCalls.take 5) construct ()).1.Calculate ()).result = .ok () ∧
      ∃ a b : ℚ,
        (run testCalls construct ()).1.getProduct =
            .ok { name := "Feed", composition := [("A", a), ("B", b)], temperature := 500,
                  pressure := 200000 } ∧
          0 < a ∧ 0 < b ∧ a + b = 3 := by
  refine ⟨by decide!, by decide!,
    869040744148890246802213359599 / 697356880200000000000000000000,
    1223029896451109753197786640401 / 697356880200000000000000000000,
    by decide!, by decide!, by decide!, by decide!⟩

/-- A value that `find` returns is the value of an entry. -/
theorem find_mem (mu : Composition) (k : String) (m : ℚ) (h : find mu k = some m) :
    ∃ kv ∈ mu, kv.2 = m := by
  induction mu with
  | nil => simp [find] at h
  | cons kv rest ih =>
    simp only [find] at h
    split at h
    · exact ⟨kv, List.mem_cons_self _ _, by simpa using h⟩
    · obtain ⟨kv1, hm, hv⟩ := ih h
      exact ⟨kv1, List.mem_cons_of_mem _ hm, hv⟩

theorem sumMoles_cons (kv : String × ℚ) (m : Composition) :
    sumMoles (kv :: m) = kv.2 + sumMoles m := by
  simp [sumMoles_eq_sum]

/-- The sum of potentials that all equal `c`. -/
theorem sumMoles_uniform (mu : Composition) (c : ℚ) (h : ∀ kv ∈ mu, kv.2 = c) :
    sumMoles mu = (mu.length : ℚ) * c := by
  induction mu with
  | nil => simp [sumMoles]
  | cons kv rest ih =>
    rw [sumMoles_cons, ih fun kv1 hm => h kv1 (List.mem_cons_of_mem _ hm),
      h kv (List.mem_cons_self _ _)]
    simp only [List.length_cons]
    push_cast
    ring

/-- With potentials that are all equal, a potential that `find` returns is the mean. -/
theorem find_uniform (mu : Composition) (hu : ∀ a ∈ mu, ∀ b ∈ mu, a.2 = b.2) (k : String)
    (m : ℚ) (h : find mu k = some m) : m = lambdaOf mu := by
  obtain ⟨kv, hmem, hv⟩ := find_mem mu k m h
  have hall : ∀ b ∈ mu, b.2 = m := fun b hb => (hu b hb kv hmem).trans hv
  have hlen : (mu.length : ℚ) ≠ 0 := by
    have : mu ≠ [] := List.ne_nil_of_mem hmem
    exact_mod_cast fun h0 => this (List.length_eq_zero.mp h0)
  rw [lambdaOf, sumMoles_uniform mu m hall]
  field_simp

/-- With potentials that are all equal, the update changes no amount that is not
negative. -/
theorem adjust_uniform (mu : Composition) (hu : ∀ a ∈ mu, ∀ b ∈ mu, a.2 = b.2)
    (comp : Composition) (hnn : ∀ kv ∈ comp, 0 ≤ kv.2) :
    adjust mu (lambdaOf mu) comp = comp := by
  unfold adjust
  conv_rhs => rw [← List.map_id comp]
  apply List.map_congr_left
  intro kv hkv
  cases hfind : find mu kv.1 with
  | none => rfl
  | some m =>
    have hm := find_uniform mu hu kv.1 m hfind
    simp [hm, hnn kv hkv]

/-- The renormalisation by the quotient of a total by itself changes nothing. -/
theorem rescale_self (t : ℚ) (ht : t ≠ 0) (comp : Composition) : rescale t t comp = comp := by
  unfold rescale
  conv_rhs => rw [← List.map_id comp]
  apply List.map_congr_left
  intro kv _
  simp [div_self ht]

/-- With a package whose potentials are all equal in every answer, the loop leaves the
product as it was, however it ends. -/
theorem iterate_uniform (thermo : ThermoPackage σ)
    (huni : ∀ p w mu w1, thermo.chemicalPotential p w = (.ok mu, w1) →
      ∀ a ∈ mu, ∀ b ∈ mu, a.2 = b.2)
    (t : ℚ) (ht : ¬ t ≤ 0) (n : Nat) (mu : Composition) (p : MaterialPort) (w : σ)
    (hu : ∀ a ∈ mu, ∀ b ∈ mu, a.2 = b.2) (hp : sumMoles p.composition = t)
    (hnn : ∀ kv ∈ p.composition, 0 ≤ kv.2) :
    (iterate thermo t n mu p w).2.1 = p := by
  induction n generalizing mu w with
  | zero => simp [iterate]
  | succ n ih =>
    have hadj := adjust_uniform mu hu p.composition hnn
    have ht0 : t ≠ 0 := fun h0 => ht (by rw [h0])
    have hnext : nextProduct t mu p = p := by
      simp only [nextProduct, hadj, hp, rescale_self t ht0]
    rw [iterate_succ, hadj, hp, if_neg ht, hnext]
    rcases hq : thermo.chemicalPotential p w with ⟨e | mu1, w1⟩
    · rfl
    · exact ih mu1 w1 (huni p w mu1 w1 hq)

/-- C18 (uniform potentials are a fixed point): when no amount of the feed is negative,
every answer of the attached package gives all its species the same potential, and
`Calculate` returns normally, `getProduct` returns a product whose composition is the
composition of the feed, entry by entry. -/
theorem uniform_fixed_point (self : RGibbsReactor σ) (w : σ) (thermo : ThermoPackage σ)
    (hth : self.thermo_ = some thermo)
    (huni : ∀ p w mu w1, thermo.chemicalPotential p w = (.ok mu, w1) →
      ∀ a ∈ mu, ∀ b ∈ mu, a.2 = b.2)
    (hnn : ∀ kv ∈ self.feed_.composition, 0 ≤ kv.2)
    (h : (self.Calculate w).result = .ok ()) :
    ∃ p, (self.Calculate w).reactor.getProduct = .ok p ∧
      p.composition = self.feed_.composition := by
  obtain ⟨hi, hv, he⟩ := Calculate_ok self w h
  refine ⟨(self.performGibbsMinimization w).reactor.product_, ?_, ?_⟩
  · rw [Calculate_engine_ok self w hi hv he]
    simp [getProduct]
  · rcases hq : thermo.chemicalPotential self.startProduct w with ⟨e | mu, w1⟩
    · rw [performGibbsMinimization_query self w w1 thermo e hth hq] at he
      simp at he
    · by_cases ht : sumMoles self.feed_.composition ≤ 0
      · rw [performGibbsMinimization_total self w w1 thermo mu hth hq ht] at he
        simp at he
      · have hfix := iterate_uniform thermo huni (sumMoles self.feed_.composition) ht 20 mu
          self.startProduct w1 (huni _ _ _ _ hq) rfl hnn
        rcases hl : iterate thermo (sumMoles self.feed_.composition) 20 mu
          self.startProduct w1 with ⟨e | u, p, w2⟩
        · rw [performGibbsMinimization_loop self w w1 w2 thermo mu e p hth hq ht hl] at he
          simp at he
        · rcases hg : thermo.gibbsEnergy p w2 with ⟨r, w3⟩
          rw [performGibbsMinimization_gibbs self w w1 w2 w3 thermo mu p r hth hq ht hl hg]
          rw [hl] at hfix
          simp only at hfix
          rw [hfix]
          rfl

theorem uniform_fixed_point_witness :
    ((testReactorWith (σ := Unit) constantThermo).Calculate ()).result = .ok () ∧
      ∃ p, ((testReactorWith (σ := Unit) constantThermo).Calculate ()).reactor.getProduct =
          .ok p ∧
        p.composition = [("A", 1), ("B", 2)] :=
  ⟨by decide!,
    uniform_fixed_point (testReactorWith constantThermo) () constantThermo rfl
      (by
        intro p w mu w1 hq a ha b hb
        simp only [constantThermo, Prod.mk.injEq, Except.ok.injEq] at hq
        obtain ⟨rfl, -⟩ := hq
        simp only [List.mem_map] at ha hb
        obtain ⟨_, _, rfl⟩ := ha
        obtain ⟨_, _, rfl⟩ := hb
        rfl)
      (by decide!) (by decide!)⟩

/-- The update of one iteration keeps the species and their order. -/
theorem adjust_keys (mu : Composition) (lam : ℚ) (comp : Composition) :
    (adjust mu lam comp).map Prod.fst = comp.map Prod.fst := by
  simp only [adjust, List.map_map]
  apply List.map_congr_left
  intro kv _
  simp only [Function.comp]
  cases find mu kv.1 <;> rfl

/-- The renormalisation keeps the species and their order. -/
theorem rescale_keys (t n : ℚ) (comp : Composition) :
    (rescale t n comp).map Prod.fst = comp.map Prod.fst := by
  simp only [rescale, List.map_map]
  apply List.map_congr_left
  intro kv _
  rfl

theorem nextProduct_keys (t : ℚ) (mu : Composition) (p : MaterialPort) :
    (nextProduct t mu p).composition.map Prod.fst = p.composition.map Prod.fst := by
  simp only [nextProduct, rescale_keys, adjust_keys]

/-- A potential stored under a species that is not in the composition plays no part in
the update. -/
theorem adjust_cons_of_not_mem (k : String) (m : ℚ) (ms : Composition) (lam : ℚ)
    (comp : Composition) (hk : k ∉ comp.map Prod.fst) :
    adjust ((k, m) :: ms) lam comp = adjust ms lam comp := by
  unfold adjust
  apply List.map_congr_left
  intro kv hkv
  have hne : ¬ k = kv.1 := by
    intro heq
    exact hk (heq ▸ List.mem_map_of_mem Prod.fst hkv)
  simp [find, hne]

/-- When the potentials are stored under exactly the species of the composition, each
once, the update lowers the total by at most `alpha` times the sum of the deviations
of the potentials from `lam`. -/
theorem adjust_lower_bound (comp mu : Composition) (lam : ℚ)
    (hk : mu.map Prod.fst = comp.map Prod.fst) (hnd : (comp.map Prod.fst).Nodup) :
    sumMoles comp - alpha * (sumMoles mu - (mu.length : ℚ) * lam) ≤
      sumMoles (adjust mu lam comp) := by
  induction comp generalizing mu with
  | nil =>
    have hmu : mu = [] := by simpa using hk
    subst hmu
    simp [adjust, sumMoles]
  | cons kv cs ih =>
    cases mu with
    | nil => simp at hk
    | cons km ms =>
      obtain ⟨k, m⟩ := km
      simp only [List.map_cons, List.cons.injEq] at hk
      obtain ⟨hk1, hk2⟩ := hk
      simp only [List.map_cons, List.nodup_cons] at hnd
      obtain ⟨hnot, hnd2⟩ := hnd
      have hhead : adjust ((k, m) :: ms) lam (kv :: cs) =
          (kv.1, max 0 (kv.2 - alpha * (m - lam))) :: adjust ms lam cs := by
        have htail := adjust_cons_of_not_mem k m ms lam cs (by rw [hk1]; exact hnot)
        unfold adjust at htail ⊢
        rw [List.map_cons, htail]
        simp [find, hk1]
      rw [hhead, sumMoles_cons, sumMoles_cons, sumMoles_cons]
      have hih := ih ms hk2 hnd2
      have hmax : kv.2 - alpha * (m - lam) ≤ max 0 (kv.2 - alpha * (m - lam)) :=
        le_max_right _ _
      simp only [List.length_cons]
      push_cast
      linarith

/-- When the potentials are stored under exactly the species of the composition, each
once, the update with the mean of the potentials does not lower the total. -/
theorem adjust_total_le (comp mu : Composition)
    (hk : mu.map Prod.fst = comp.map Prod.fst) (hnd : (comp.map Prod.fst).Nodup) :
    sumMoles comp ≤ sumMoles (adjust mu (lambdaOf mu) comp) := by
  have h := adjust_lower_bound comp mu (lambdaOf mu) hk hnd
  have hz : sumMoles mu - (mu.length : ℚ) * lambdaOf mu = 0 := by
    by_cases hl : (mu.length : ℚ) = 0
    · have hmu : mu = [] := List.length_eq_zero.mp (by exact_mod_cast hl)
      subst hmu
      simp [sumMoles]
    · rw [lambdaOf]
      field_simp
  rw [hz] at h
  simpa using h

theorem iterateTraced_succ (thermo : ThermoPackage σ) (t : ℚ) (n : Nat) (mu : Composition)
    (p : MaterialPort) (w : σ) :
    iterateTraced thermo t (n + 1) mu p w =
      if sumMoles (adjust mu (lambdaOf mu) p.composition) ≤ 0 then
        ((.error (.cape ⟨.CapeCalculationFailed, "迭代得到无效组成"⟩),
          { p with composition := adjust mu (lambdaOf mu) p.composition }, w),
          [sumMoles (adjust mu (lambdaOf mu) p.composition)])
      else
        match thermo.chemicalPotential (nextProduct t mu p) w with
        | (.error e, w1) =>
          ((.error e, nextProduct t mu p, w1),
            [sumMoles (adjust mu (lambdaOf mu) p.composition)])
        | (.ok mu1, w1) =>
          ((iterateTraced thermo t n mu1 (nextProduct t mu p) w1).1,
            sumMoles (adjust mu (lambdaOf mu) p.composition) ::
              (iterateTraced thermo t n mu1 (nextProduct t mu p) w1).2) := rfl

/-- The traced loop ends as the loop does, on every input. -/
theorem iterateTraced_fst (thermo : ThermoPackage σ) (t : ℚ) (n : Nat) (mu : Composition)
    (p : MaterialPort) (w : σ) :
    (iterateTraced thermo t n mu p w).1 = iterate thermo t n mu p w := by
  induction n generalizing mu p w with
  | zero => rfl
  | succ n ih =>
    rw [iterateTraced_succ, iterate_succ]
    by_cases hn : sumMoles (adjust mu (lambdaOf mu) p.composition) ≤ 0
    · rw [if_pos hn, if_pos hn]
    · rw [if_neg hn, if_neg hn]
      rcases hq : thermo.chemicalPotential (nextProduct t mu p) w with ⟨e | mu1, w1⟩
      · rfl
      · exact ih mu1 _ w1

/-- The traced engine ends as the engine does, on every input. -/
theorem performGibbsMinimizationTraced_fst (self : RGibbsReactor σ) (w : σ) :
    (self.performGibbsMinimizationTraced w).1 = self.performGibbsMinimization w := by
  cases hth : self.thermo_ with
  | none =>
    rw [performGibbsMinimization_null self w hth]
    simp [performGibbsMinimizationTraced, hth, startProduct]
  | some thermo =>
    rcases hq : thermo.chemicalPotential self.startProduct w with ⟨e | mu, w1⟩
    · rw [performGibbsMinimization_query self w w1 thermo e hth hq]
      unfold startProduct at hq
      simp [performGibbsMinimizationTraced, hth, hq, startProduct]
    · by_cases ht : sumMoles self.feed_.composition ≤ 0
      · rw [performGibbsMinimization_total self w w1 thermo mu hth hq ht]
        unfold startProduct at hq
        simp [performGibbsMinimizationTraced, hth, hq, ht, startProduct]
      · have hfst := iterateTraced_fst thermo (sumMoles self.feed_.composition) 20 mu
          self.startProduct w1
        rcases hlt : iterateTraced thermo (sumMoles self.feed_.composition) 20 mu
          self.startProduct w1 with ⟨⟨r, p, w2⟩, totals⟩
        rw [hlt] at hfst
        simp only at hfst
        cases r with
        | error e =>
          rw [performGibbsMinimization_loop self w w1 w2 thermo mu e p hth hq ht hfst.symm]
          unfold startProduct at hq hlt
          simp [performGibbsMinimizationTraced, hth, hq, ht, hlt]
        | ok u =>
          rcases hg : thermo.gibbsEnergy p w2 with ⟨g, w3⟩
          rw [performGibbsMinimization_gibbs self w w1 w2 w3 thermo mu p g hth hq ht
            hfst.symm hg]
          unfold startProduct at hq hlt
          cases g <;>
            simp [performGibbsMinimizationTraced, hth, hq, ht, hlt, hg, Except.map]

/-- With a package that never throws and answers on exactly the species it is given,
the loop ends normally, runs all its iterations, and `newTotal` is at least the start
total in each. -/
theorem iterateTraced_well_behaved (thermo : ThermoPackage σ)
    (hnf : ∀ p w, ∃ mu w1, thermo.chemicalPotential p w = (.ok mu, w1))
    (hkeys : ∀ p w mu w1, (p.composition.map Prod.fst).Nodup →
      thermo.chemicalPotential p w = (.ok mu, w1) →
      mu.map Prod.fst = p.composition.map Prod.fst)
    (t : ℚ) (ht : 0 < t) (n : Nat) (mu : Composition) (p : MaterialPort) (w : σ)
    (hp : sumMoles p.composition = t) (hk : mu.map Prod.fst = p.composition.map Prod.fst)
    (hnd : (p.composition.map Prod.fst).Nodup) :
    (iterateTraced thermo t n mu p w).1.1 = .ok () ∧
      (iterateTraced thermo t n mu p w).2.length = n ∧
      ∀ x ∈ (iterateTraced thermo t n mu p w).2, t ≤ x := by
  induction n generalizing mu p w with
  | zero => simp [iterateTraced]
  | succ n ih =>
    have hle := adjust_total_le p.composition mu hk hnd
    rw [hp] at hle
    have hn : ¬ sumMoles (adjust mu (lambdaOf mu) p.composition) ≤ 0 :=
      not_le.mpr (lt_of_lt_of_le ht hle)
    have hnd2 : ((nextProduct t mu p).composition.map Prod.fst).Nodup := by
      rw [nextProduct_keys]; exact hnd
    obtain ⟨mu1, w1, hq⟩ := hnf (nextProduct t mu p) w
    have hk2 := hkeys _ _ _ _ hnd2 hq
    obtain ⟨h1, h2, h3⟩ := ih mu1 (nextProduct t mu p) w1 (sumMoles_nextProduct t mu p hn)
      hk2 hnd2
    rw [iterateTraced_succ, if_neg hn, hq]
    refine ⟨h1, by simp [h2], ?_⟩
    intro x hx
    simp only [List.mem_cons] at hx
    rcases hx with rfl | hx
    · exact hle
    · exact h3 x hx

/-- C16, as stated, fails in the arithmetic of the code: with the amounts as `double`,
`DummyThermo` (which never throws and answers on exactly the species of the state) and
the feed `A: 2^1023, B: 2^1023`, whose total overflows to `+inf`, the second iteration
throws the iteration failure; and with all values finite, on the feed
`A: 0, B: 0, C: 0.1` and the potentials `1e16, 1e16, 1e16 + 2`, whose sum is rounded, the
first iteration throws it. -/
theorem iteration_failure_counterexample :
    ((binary64.reactorWith (σ := Unit) binary64.hugeFeed
          binary64.DummyThermo).initialized_ = true ∧
        binary64.hugeFeed ≠ [] ∧
        (binary64.hugeFeed.map Prod.fst).Nodup ∧
        binary64.Double.lt (.finite 0)
          (binary64.reactorWith (σ := Unit) binary64.hugeFeed
            binary64.DummyThermo).temperature_ = true ∧
        binary64.Double.lt (.finite 0)
          (binary64.reactorWith (σ := Unit) binary64.hugeFeed
            binary64.DummyThermo).pressure_ = true ∧
        binary64.Double.lt (.finite 0) (binary64.sumMoles binary64.hugeFeed) = true ∧
        (∀ (p : binary64.MaterialPort) (w : Unit), ∃ mu w1,
          binary64.DummyThermo.chemicalPotential p w = (.ok mu, w1) ∧
            mu.map Prod.fst = p.composition.map Prod.fst) ∧
        (∀ (p : binary64.MaterialPort) (w : Unit), ∃ g w1,
          binary64.DummyThermo.gibbsEnergy p w = (.ok g, w1)) ∧
        ((binary64.reactorWith (σ := Unit) binary64.hugeFeed
          binary64.DummyThermo).Calculate ()).result =
          .error (.cape ⟨.CapeCalculationFailed, "迭代得到无效组成"⟩)) ∧
      ((binary64.reactorWith (σ := Unit) binary64.smallFeed
          binary64.skewThermo).initialized_ = true ∧
        binary64.smallFeed ≠ [] ∧
        (binary64.smallFeed.map Prod.fst).Nodup ∧
        binary64.Double.lt (.finite 0)
          (binary64.reactorWith (σ := Unit) binary64.smallFeed
            binary64.skewThermo).temperature_ = true ∧
        binary64.Double.lt (.finite 0)
          (binary64.reactorWith (σ := Unit) binary64.smallFeed
            binary64.skewThermo).pressure_ = true ∧
        binary64.Double.lt (.finite 0) (binary64.sumMoles binary64.smallFeed) = true ∧
        (∀ (p : binary64.MaterialPort) (w : Unit), ∃ mu w1,
          binary64.skewThermo.chemicalPotential p w = (.ok mu, w1) ∧
            mu.map Prod.fst = p.composition.map Prod.fst) ∧
        (∀ (p : binary64.MaterialPort) (w : Unit), ∃ g w1,
          binary64.skewThermo.gibbsEnergy p w = (.ok g, w1)) ∧
        ((binary64.reactorWith (σ := Unit) binary64.smallFeed
          binary64.skewThermo).Calculate ()).result =
          .error (.cape ⟨.CapeCalculationFailed, "迭代得到无效组成"⟩)) := by
  have keys : ∀ (f : String × binary64.Double → String × binary64.Double)
      (c : binary64.Composition), (∀ kv, (f kv).1 = kv.1) →
      (c.map f).map Prod.fst = c.map Prod.fst := by
    intro f c hf
    rw [List.map_map]
    exact List.map_congr_left fun kv _ => hf kv
  refine ⟨⟨rfl, by decide, by decide, by decide!, by decide!, by decide!, ?_, ?_,
    by decide!⟩, rfl, by decide!, by decide, by decide!, by decide!, by decide!, ?_, ?_,
    by decide!⟩
  · intro p w
    exact ⟨_, _, rfl, keys _ _ fun _ => rfl⟩
  · intro p w
    exact ⟨_, _, rfl⟩
  · intro p w
    exact ⟨_, _, rfl, keys _ _ fun _ => rfl⟩
  · intro p w
    exact ⟨_, _, rfl⟩

/-- C16, amended (exact arithmetic): with amounts and potentials read as exact rationals,
on an initialised object with positive setpoints, a feed of positive total whose species
are distinct, and a package that never throws and answers on exactly the species of the
state it is given, `Calculate` returns normally; the engine, which ends as its traced
run does, runs all `20` iterations, and in each the total after the update is at least
the total of the feed, hence positive, so the iteration check never fires. -/
theorem iteration_never_fails (self : RGibbsReactor σ) (w : σ) (thermo : ThermoPackage σ)
    (hi : self.initialized_ = true) (hth : self.thermo_ = some thermo)
    (ht : 0 < self.temperature_) (hp : 0 < self.pressure_)
    (htot : 0 < sumMoles self.feed_.composition)
    (hnd : (self.feed_.composition.map Prod.fst).Nodup)
    (hnf : ∀ p w, ∃ mu w1, thermo.chemicalPotential p w = (.ok mu, w1))
    (hng : ∀ p w, ∃ g w1, thermo.gibbsEnergy p w = (.ok g, w1))
    (hkeys : ∀ p w mu w1, (p.composition.map Prod.fst).Nodup →
      thermo.chemicalPotential p w = (.ok mu, w1) →
      mu.map Prod.fst = p.composition.map Prod.fst) :
    (self.Calculate w).result = .ok () ∧
      (self.performGibbsMinimizationTraced w).1 = self.performGibbsMinimization w ∧
      (self.performGibbsMinimizationTraced w).2.length = 20 ∧
      ∀ x ∈ (self.performGibbsMinimizationTraced w).2,
        sumMoles self.feed_.composition ≤ x ∧ 0 < x := by
  have hne : self.feed_.composition ≠ [] := by
    intro h0
    rw [h0] at htot
    simp [sumMoles] at htot
  have hv : (self.Validate w).result = .ok () := by rw [Validate_pass self w hi hne ht hp]
  obtain ⟨mu, w1, hq⟩ := hnf self.startProduct w
  have hk := hkeys self.startProduct w mu w1 hnd hq
  have hnt : ¬ sumMoles self.feed_.composition ≤ 0 := not_le.mpr htot
  obtain ⟨h1, h2, h3⟩ := iterateTraced_well_behaved thermo hnf hkeys
    (sumMoles self.feed_.composition) htot 20 mu self.startProduct w1 rfl hk hnd
  have hfst := performGibbsMinimizationTraced_fst self w
  rcases hlt : iterateTraced thermo (sumMoles self.feed_.composition) 20 mu
    self.startProduct w1 with ⟨⟨r, p, w2⟩, totals⟩
  rw [hlt] at h1 h2 h3
  simp only at h1 h2 h3
  subst h1
  obtain ⟨g, w3, hg⟩ := hng p w2
  have htr : self.performGibbsMinimizationTraced w =
      (⟨.ok (), { self with product_ := p }, w3⟩, totals) := by
    unfold startProduct at hq hlt
    simp [performGibbsMinimizationTraced, hth, hq, hnt, hlt, hg]
  have he : (self.performGibbsMinimization w).result = .ok () := by
    rw [← hfst, htr]
  refine ⟨?_, hfst, by rw [htr]; exact h2, ?_⟩
  · rw [Calculate_engine_ok self w hi hv he]
  · intro x hx
    rw [htr] at hx
    exact ⟨h3 x hx, lt_of_lt_of_le htot (h3 x hx)⟩

theorem iteration_never_fails_witness :
    ((testReactor : RGibbsReactor Unit).Calculate ()).result = .ok () ∧
      ((testReactor : RGibbsReactor Unit).performGibbsMinimizationTraced ()).1 =
        (testReactor : RGibbsReactor Unit).performGibbsMinimization () ∧
      ((testReactor : RGibbsReactor Unit).performGibbsMinimizationTraced ()).2.length = 20 ∧
      ∀ x ∈ ((testReactor : RGibbsReactor Unit).performGibbsMinimizationTraced ()).2,
        sumMoles (testReactor : RGibbsReactor Unit).feed_.composition ≤ x ∧ 0 < x :=
  iteration_never_fails testReactor () DummyThermo rfl rfl (by decide!) (by decide!)
    (by decide!) (by decide)
    (fun p w => ⟨_, _, rfl⟩) (fun p w => ⟨_, _, rfl⟩)
    (by
      intro p w mu w1 _ hq
      simp only [DummyThermo, Prod.mk.injEq, Except.ok.injEq] at hq
      obtain ⟨rfl, -⟩ := hq
      simp only [List.map_map]
      apply List.map_congr_left
      intro kv _
      rfl)

/-- The arithmetic of `binary64.Double` on familiar values: the `double` nearest to `0.1`,
the sum `0.1 + 0.2`, the overflow of `2^1023 + 2^1023`, the quotient `inf / inf`, and
`std::max(0.0, NaN)`. -/
theorem binary64_arithmetic_examples :
    binary64.Double.round 0.1 = .finite (3602879701896397 / 36028797018963968) ∧
      binary64.Double.add (binary64.Double.round 0.1) (binary64.Double.round 0.2) =
        .finite (1351079888211149 / 4503599627370496) ∧
      binary64.Double.add (.finite (2 ^ 1023)) (.finite (2 ^ 1023)) = .posInf ∧
      binary64.Double.div .posInf .posInf = .nan ∧
      binary64.Double.max (.finite 0) .nan = .finite 0 ∧
      binary64.Double.le .nan (.finite 0) = false := by
  refine ⟨by decide!, by decide!, by decide!, by decide!, by decide!, by decide!⟩

/-- The engine in `double` arithmetic on the input of `test_successful_calculation`: the
product amounts are the doubles printed as `1.2461922565382186` and
`1.7538077434617814`. -/
theorem binary64_reference_output :
    ((binary64.reactorWith (σ := Unit) [("A", .finite 1), ("B", .finite 2)]
        binary64.DummyThermo).Calculate ()).reactor.getProduct =
      .ok { name := "Feed"
            composition :=
              [("A", .finite (5612350982177519 / 4503599627370496)),
                ("B", .finite (7898447899933969 / 4503599627370496))]
            temperature := .finite 500
            pressure := .finite 200000 } := by
  decide!

end capeopen
